import Mathlib

/-!
# The-Drone-Rangers: verification of the shepherding engine specification

A shallow embedding, over exact rationals, of the code in
`src/planning` (policy, plan types, job/goal model) and
`src/simulation/world.py` (flock dynamics), together with proofs and
refutations of the specification claims.

Modelling conventions:
* Python floats are modelled as `ℚ`.  `np.sqrt` / `np.linalg.norm` are
  modelled by `ratSqrt` (below), which agrees with the real square root on
  every perfect square of a rational; every concrete configuration used in a
  witness or counterexample below only takes square roots of perfect squares,
  so the modelled arithmetic is exact there.
* numpy's `-inf` sentinel (used for "sheep already inside the goal") is
  modelled by the type `XQ` below.
* The `numpy.random.Generator` draws are modelled by explicit per-agent
  streams (`Rand`), one `random()` draw and two `normal(size=2)` draws per
  agent per tick.
* Python exceptions are modelled by `Except` / an explicit error constructor.
-/

namespace DroneRangers

/- Mathlib marks the basic `Rat` operations irreducible to steer proofs
toward `norm_num`; the concrete evaluations below reduce them instead (the
kernel ignores reducibility when it rechecks `decide`), so re-allow
unfolding for elaboration. -/
attribute [local semireducible] Rat.add Rat.mul Rat.inv Rat.sub

/-- 2-D vector over `ℚ` (a row of a numpy `(n, 2)` array). -/
structure Vec2 where
  x : ℚ
  y : ℚ
deriving DecidableEq, Repr

def vzero : Vec2 := ⟨0, 0⟩

def vadd (a b : Vec2) : Vec2 := ⟨a.x + b.x, a.y + b.y⟩

def vsub (a b : Vec2) : Vec2 := ⟨a.x - b.x, a.y - b.y⟩

def vsmul (c : ℚ) (v : Vec2) : Vec2 := ⟨c * v.x, c * v.y⟩

def vdot (a b : Vec2) : ℚ := a.x * b.x + a.y * b.y

/-- Squared Euclidean norm (`np.sum(v**2)`). -/
def vnorm2 (v : Vec2) : ℚ := v.x * v.x + v.y * v.y

/-- Heron iteration for the integer square root, with explicit fuel so that
the definition is structurally recursive and reduces in the kernel. -/
def isqrtGo (n : ℕ) : ℕ → ℕ → ℕ
  | 0, x => x
  | fuel + 1, x =>
    let x' := (x + n / x) / 2
    if x' < x then isqrtGo n fuel x' else x

/-- Integer square root (exact on perfect squares). -/
def isqrt (n : ℕ) : ℕ := if n ≤ 1 then n else isqrtGo n n n

/-- Model of the float square root: exact on perfect squares of rationals
(the only inputs produced by the concrete configurations in this file). -/
def ratSqrt (q : ℚ) : ℚ := (isqrt q.num.toNat : ℚ) / (isqrt q.den : ℚ)

/-- `np.linalg.norm` of a 2-vector. -/
def vnorm (v : Vec2) : ℚ := ratSqrt (vnorm2 v)

/-- `np.clip x lo hi` (numpy clips to `lo` first, then `hi`). -/
def clip (x lo hi : ℚ) : ℚ := min (max x lo) hi

/-- Python float `%` (sign follows the divisor): `x - L * ⌊x / L⌋`. -/
def qmod (x L : ℚ) : ℚ := x - L * (⌊x / L⌋ : ℤ)

theorem ratSqrt_nonneg (q : ℚ) : 0 ≤ ratSqrt q := by
  unfold ratSqrt
  positivity

/-! ## `planning/herding/utils.py` -/

/-- `utils.norm`: normalize `v` to (approximately) unit length. -/
def normU (v : Vec2) : Vec2 := vsmul (1 / (vnorm v + 1/1000000000)) v

/-- `utils.smooth_push`: influence scalar `max(0, 1 - dist/(rs + eps))`. -/
def smooth_push (dist rs : ℚ) : ℚ := max 0 (1 - dist / (rs + 1/1000000000))

/-! ## `planning/state.py`: jobs, targets, world snapshot -/

/-- `state.Target`: tagged union of `Circle` and `Polygon`. -/
inductive Target where
  | circle (center : Vec2) (radius : Option ℚ)
  | polygon (points : List Vec2)
deriving DecidableEq, Repr

inductive JobStatus where
  | pending | scheduled | running | completed | cancelled
deriving DecidableEq, Repr

inductive MaintainUntil where
  | targetIsReached
  | timestamp (t : ℚ)
deriving DecidableEq, Repr

/-- `state.Job` (timestamps as rationals, UUID as an opaque `ℕ`). -/
structure Job where
  target : Option Target
  remainingTime : Option ℚ
  isActive : Bool
  drones : ℕ
  status : JobStatus
  startAt : Option ℚ
  completedAt : Option ℚ
  scenarioId : Option String
  maintainUntil : MaintainUntil
  createdAt : ℚ
  updatedAt : ℚ
  id : ℕ
deriving DecidableEq, Repr

/-- `state.State`: the read-only world snapshot handed to the policy. -/
structure SState where
  flock : List Vec2
  drones : List Vec2
  polygons : List (List Vec2)
  jobs : List Job
deriving DecidableEq, Repr

/-! ## `planning/plan_type.py` -/

/-- The `DronePositions` dataclass payload.  Its *declared* fields are
`positions`, `apply_repulsion`, `target_sheep_indices` only (see
`dronePositionsFields` below); the debug fields `gcm`/`radius` that the
policy and `run_demo.py` expect do not exist on the dataclass. -/
structure DronePositionsData where
  positions : List Vec2
  applyRepulsion : List Bool
  targetSheepIndices : List ℕ
deriving DecidableEq, Repr

/-- `plan_type.Plan`: tagged union of `DronePositions` and `DoNothing`. -/
inductive Plan where
  | doNothing
  | dronePositions (d : DronePositionsData)
deriving DecidableEq, Repr

/-- Field names of the `DronePositions` dataclass in `plan_type.py`; its
generated `__init__` accepts exactly these keywords. -/
def dronePositionsFields : List String :=
  ["positions", "apply_repulsion", "target_sheep_indices"]

/-- Keyword arguments supplied at the `DronePositions(...)` construction in
`ShepherdPolicy._gentle_plan` (policy.py lines 416-422). -/
def gentlePlanKwargs : List String :=
  ["positions", "apply_repulsion", "target_sheep_indices", "gcm", "radius"]

/-- A Python dataclass call succeeds iff every supplied keyword is a declared
field (otherwise `TypeError: unexpected keyword argument`). -/
def dataclassAccepts (fields kwargs : List String) : Bool :=
  kwargs.all (fun k => fields.contains k)

/-! ## `planning/herding/policy.py`: module-level geometry -/

/-- `policy.lerp_clamped`. -/
def lerp_clamped (a b t1 t2 t : ℚ) : ℚ :=
  let t' := (t - t1) / (t2 - t1)
  let t'' := max 0 (min 1 t')
  a + (b - a) * t''

/-- One query point of `policy.points_inside_polygon` (ray casting; the
module-level function in policy.py, distinct from the world's PIP). -/
def pointInPolyPolicy (p : Vec2) (polygon : List Vec2) : Bool :=
  if polygon.length < 3 then false
  else
    let n := polygon.length
    let cnt : ℕ := (List.range n).foldl (fun acc j =>
      let v1 := polygon.getD j vzero
      let v2 := polygon.getD ((j + 1) % n) vzero
      if (decide (v1.y > p.y)) != (decide (v2.y > p.y)) then
        -- the `y2 != y1` guard in source is implied by the crossing test
        if v2.y ≠ v1.y then
          let xIntersect := (p.y - v1.y) * (v2.x - v1.x) / (v2.y - v1.y) + v1.x
          if p.x < xIntersect then acc + 1 else acc
        else acc
      else acc) 0
    cnt % 2 == 1

/-- `policy.points_inside_polygon` on a batch of points. -/
def points_inside_polygon (points : List Vec2) (polygon : List Vec2) : List Bool :=
  points.map (fun p => pointInPolyPolicy p polygon)

/-- One query point of `policy.closest_point_on_polygon`: fold over the edges
keeping the closest candidate (strict improvement, first edge wins ties). -/
def closestPointOnPolygonAt (p : Vec2) (polygon : List Vec2) : Vec2 :=
  if polygon.length < 2 then
    match polygon with
    | [] => p
    | v :: _ => v
  else
    let n := polygon.length
    let best := (List.range n).foldl
      (fun (best : Option (ℚ × Vec2)) i =>
        let v1 := polygon.getD i vzero
        let v2 := polygon.getD ((i + 1) % n) vzero
        let edge := vsub v2 v1
        let edgeLenSq := vdot edge edge
        let cand :=
          if edgeLenSq < 1/1000000000 then v1
          else
            let t := clip (vdot (vsub p v1) edge / edgeLenSq) 0 1
            vadd v1 (vsmul t edge)
        let d2 := vnorm2 (vsub p cand)
        match best with
        | none => some (d2, cand)
        | some (bd, _) => if d2 < bd then some (d2, cand) else best) none
    match best with
    | none => p
    | some (_, q) => q

/-- `policy.closest_point_on_polygon` on a batch of points. -/
def closest_point_on_polygon (points : List Vec2) (polygon : List Vec2) : List Vec2 :=
  points.map (fun p => closestPointOnPolygonAt p polygon)

/-- `policy.is_goal_satisfied`.  Empty flock: trivially satisfied.  Circle
with a radius: squared-distance comparison.  Polygon: all points inside by
the ray-cast test.  Anything else (circle with `radius=None`): `False`. -/
def is_goal_satisfied (w : SState) (target : Target) : Bool :=
  if w.flock.isEmpty then true
  else
    match target with
    | Target.circle c (some r) =>
        w.flock.all (fun p => vnorm2 (vsub p c) ≤ r * r)
    | Target.polygon pts =>
        (points_inside_polygon w.flock pts).all (fun b => b)
    | Target.circle _ none => false

/-! ## Extended rationals: numpy's `-inf` / `+inf` sentinels

`_collect_points` writes `-np.inf` into `dGoal` for sheep already inside the
goal, and those sentinels flow linearly into the score matrix.  `XQ` models a
float that is either finite, `-inf` or `+inf`.  (`0 * inf` would be NaN in
numpy; it is modelled as `0` below and is unreachable for the modelled
default policy configuration, whose weights are strictly positive.) -/

inductive XQ where
  | ninf
  | fin (q : ℚ)
  | pinf
deriving DecidableEq, Repr

/-- Strict float comparison on `XQ`. -/
def XQ.lt : XQ → XQ → Bool
  | XQ.ninf, XQ.ninf => false
  | XQ.ninf, _ => true
  | XQ.fin a, XQ.fin b => a < b
  | XQ.fin _, XQ.pinf => true
  | XQ.fin _, XQ.ninf => false
  | XQ.pinf, _ => false

/-- Add a finite float to an `XQ` value. -/
def addFinX (c : ℚ) : XQ → XQ
  | XQ.ninf => XQ.ninf
  | XQ.fin q => XQ.fin (c + q)
  | XQ.pinf => XQ.pinf

/-- Multiply an `XQ` value by a finite float. -/
def smulX (c : ℚ) : XQ → XQ
  | XQ.fin q => XQ.fin (c * q)
  | XQ.ninf => if 0 < c then XQ.ninf else if c < 0 then XQ.pinf else XQ.fin 0
  | XQ.pinf => if 0 < c then XQ.pinf else if c < 0 then XQ.ninf else XQ.fin 0

/-- Tail of `np.argmax`: scan the remaining entries, keeping the first
index attaining the running maximum. -/
def argmaxAux : List XQ → ℕ → ℕ → XQ → ℕ
  | [], _, bi, _ => bi
  | v :: rest, ci, bi, bv =>
    if XQ.lt bv v then argmaxAux rest (ci + 1) ci v
    else argmaxAux rest (ci + 1) bi bv

/-- `np.argmax`: index of the first occurrence of the maximum (0 on an empty
array, where numpy would raise; unreachable through `policyPlan`). -/
def argmaxX : List XQ → ℕ
  | [] => 0
  | v :: rest => argmaxAux rest 1 0 v

/-- `np.max` over a vector of floats (`-inf` on empty, unreachable). -/
def maxX (l : List XQ) : XQ :=
  l.foldl (fun a v => if XQ.lt a v then v else a) XQ.ninf

/-! ## `ShepherdPolicy` -/

/-- The policy's stored configuration.

The first five fields are set directly by the legacy `__init__` path.
The last four model the `PolicyConfig` fields read by the planning methods.
Modelled from the spec: `planning/policy_configs.py` (defining `PolicyConfig`
and `POLICY_PRESETS`) is absent from the sources; spec section 4.8 states the
dynamic weight formulas with no extra base factors and a single (gentle)
strategy, so the default preset is modelled as base weights and multiplier
`1` with `strategy_mode = "gentle"`. -/
structure ShepherdPolicy where
  fN : ℚ
  umax : ℚ
  tooClose : ℚ
  collectStandoff : ℚ
  conditionallyApplyRepulsion : Bool
  gcmWeight : ℚ
  goalWeight : ℚ
  closenessWeight : ℚ
  driveForceMultiplier : ℚ
deriving DecidableEq, Repr

/-- Arithmetic mean of a list of floats (division by zero on an empty list,
where numpy warns and yields NaN; callers below guard non-emptiness). -/
def qmean (l : List ℚ) : ℚ := l.sum / (l.length : ℚ)

/-- `ShepherdPolicy._gcm`: global center of mass, `np.mean(P, axis=0)`. -/
def gcm (flock : List Vec2) : Vec2 :=
  vsmul (1 / (flock.length : ℚ)) (flock.foldl vadd vzero)

/-- `ShepherdPolicy._mean_cohesiveness`.  On an empty flock the source
returns Python `True`, which numifies to `1.0`.  (If every sheep sits exactly
at `G` the float division yields `inf`; the model yields `fN / 0 = 0`; no
configuration in this file hits that case.) -/
def meanCohesiveness (fN : ℚ) (flock : List Vec2) (G : Vec2) : ℚ :=
  if flock.length = 0 then 1
  else fN / qmean (flock.map (fun p => vnorm (vsub p G)))

/-- The `dGoal` vector of `_collect_points`: distance of each sheep to the
goal, with `-inf` for sheep already inside the goal. -/
def dGoalList (P : List Vec2) (target : Option Target) : List XQ :=
  match target with
  | none => P.map (fun _ => XQ.fin 0)
  | some (Target.circle c r) =>
      P.map (fun p =>
        let d := vnorm (vsub p c)
        match r with
        | some rad => if d < rad then XQ.ninf else XQ.fin d
        | none => XQ.fin d)
  | some (Target.polygon pts) =>
      P.map (fun p =>
        let d := vnorm (vsub p (closestPointOnPolygonAt p pts))
        if pointInPolyPolicy p pts then XQ.ninf else XQ.fin d)

/-- The score vector computed for drone `i` in the assignment loop of
`_collect_points`, given the closeness weight `cw` in force at that
iteration: `intrinsic - cw * dD[:, i]` plus a bonus of `30` for each sheep to
which drone `i` is strictly the closest drone (only when more than one drone
exists).  `dDall` is drone-major: `dDall[i][s] = |P_s - D_i|`. -/
def scoreList (intrinsic : List XQ) (dDall : List (List ℚ)) (M : ℕ) (cw : ℚ)
    (i : ℕ) : List XQ :=
  (List.range intrinsic.length).map (fun s =>
    let dDis := (dDall.getD i []).getD s 0
    let base := addFinX (-(cw * dDis)) (intrinsic.getD s XQ.ninf)
    if 1 < M then
      let minOther := ((((List.range M).filter (fun k => k ≠ i)).map
        (fun k => (dDall.getD k []).getD s 0)).min?).getD 0
      if dDis < minOther then addFinX 30 base else base
    else base)

/-- The per-drone assignment loop of `_collect_points` (policy.py 298-313),
over the list of drone indices.  The Python loop mutates `closeness_weight`,
multiplying it by `1/N_drones` at the top of each iteration, so the weight
threaded through is cumulative across drones. -/
def assignGo (intrinsic : List XQ) (dDall : List (List ℚ)) (M : ℕ) :
    List ℕ → ℚ → List ℕ
  | [], _ => []
  | i :: rest, cw =>
    let cw' := cw * (1 / (M : ℚ))
    argmaxX (scoreList intrinsic dDall M cw' i) ::
      assignGo intrinsic dDall M rest cw'

/-- The assignment loop, iterated for drones `0, ..., M-1`. -/
def assignLoop (intrinsic : List XQ) (dDall : List (List ℚ)) (M : ℕ)
    (cw0 : ℚ) : List ℕ :=
  assignGo intrinsic dDall M (List.range M) cw0

/-- The sheep-by-drone distance matrix of `_collect_points`, drone-major:
`dDallOf P D [i] [s] = |P_s - D_i|`. -/
def dDallOf (P D : List Vec2) : List (List ℚ) :=
  D.map (fun d => P.map (fun p => vnorm (vsub p d)))

/-- `goal_distance` of `_collect_points` (policy.py 277):
`np.max(dGoal) / fN if np.max(dGoal) > 0 else 0`. -/
def goalDistanceOf (fN : ℚ) (dGoal : List XQ) : ℚ :=
  match maxX dGoal with
  | XQ.fin q => if 0 < q then q / fN else 0
  | _ => 0

/-- The dynamic weights of `_collect_points` (policy.py 275-293):
`(gcm_weight, goal_weight, closeness_weight)` as they stand just before the
per-drone loop. -/
def collectWeights (pol : ShepherdPolicy) (P : List Vec2) (G : Vec2)
    (target : Option Target) : ℚ × ℚ × ℚ :=
  let cohesiveness := meanCohesiveness pol.fN P G
  let goalDistance := goalDistanceOf pol.fN (dGoalList P target)
  let gcmW := pol.gcmWeight * lerp_clamped (4/5) (3/5) (3/10) (3/2) cohesiveness
      * lerp_clamped (1/2) 1 1 3 goalDistance
  let goalW := pol.goalWeight * lerp_clamped (1/5) (2/5) (3/10) (3/2) cohesiveness
  let closeW0 := pol.closenessWeight * lerp_clamped 1 (1/5) (3/10) (3/2) cohesiveness
      * lerp_clamped (1/5) 1 2 4 goalDistance
  (gcmW, goalW, closeW0)

/-- The intrinsic per-sheep score of `_collect_points` (policy.py 295):
`gcm_weight * dG + goal_weight * dGoal`. -/
def intrinsicOf (pol : ShepherdPolicy) (P : List Vec2) (G : Vec2)
    (target : Option Target) : List XQ :=
  let ws := collectWeights pol P G target
  let dG := P.map (fun p => vnorm (vsub p G))
  let dGoal := dGoalList P target
  (List.range P.length).map (fun s =>
    addFinX (ws.1 * dG.getD s 0) (smulX ws.2.1 (dGoal.getD s XQ.ninf)))

/-- `ShepherdPolicy._collect_points`: target standoff points for all drones
and the indices of the assigned sheep. -/
def collectPoints (pol : ShepherdPolicy) (world : SState) (G : Vec2)
    (target : Option Target) : List Vec2 × List ℕ :=
  let P := world.flock
  let D := world.drones
  let M := D.length
  let dDall := dDallOf P D
  let intrinsic := intrinsicOf pol P G target
  let closeW0 := (collectWeights pol P G target).2.2
  let targetSheepIndices := assignLoop intrinsic dDall M closeW0
  let collectPts := targetSheepIndices.map (fun t =>
    let Pj := P.getD t vzero
    let dirToG := vsub G Pj
    let c := vsmul (1 / (vnorm dirToG + 1/1000000000)) dirToG
    vsub Pj (vsmul pol.collectStandoff c))
  (collectPts, targetSheepIndices)

/-- `ShepherdPolicy._should_apply_repulsion`: the live part returns `True`
iff the drone is within distance 2 of its collect point (the remainder of
the Python function is unreachable dead code after `return False`). -/
def shouldApplyRepulsion (world : SState) (droneIdx : ℕ)
    (targetPositions : List Vec2) : Bool :=
  vnorm (vsub (targetPositions.getD droneIdx vzero)
    (world.drones.getD droneIdx vzero)) < 2

/-- `ShepherdPolicy._gentle_plan`.  The final `DronePositions(...)`
construction passes keywords `gcm=G, radius=self.fN` that the dataclass in
`plan_type.py` does not declare, so the construction raises `TypeError`;
the model checks the call's keywords against the dataclass fields. -/
def gentlePlan (pol : ShepherdPolicy) (world : SState) (target : Option Target)
    (G : Vec2) (dt : ℚ) : Except String Plan :=
  let Nd := world.drones.length
  let pr := collectPoints pol world G target
  let targetPositions := pr.1
  let targetIndices := pr.2
  let applyRepulsion : List Bool :=
    if pol.conditionallyApplyRepulsion then
      (List.range Nd).map (fun i => shouldApplyRepulsion world i targetPositions)
    else List.replicate Nd true
  let dirUnit : List Vec2 := (List.range Nd).map (fun i =>
    let dir := vsub (targetPositions.getD i vzero) (world.drones.getD i vzero)
    vsmul (1 / (vnorm dir + 1/1000000000)) dir)
  let tooCloseSq := pol.tooClose * pol.tooClose
  let newPositions : List Vec2 := (List.range Nd).map (fun i =>
    let d := world.drones.getD i vzero
    let distSq := ((world.flock.map (fun p => vnorm2 (vsub p d))).min?).getD 0
    if tooCloseSq ≤ distSq ∨ applyRepulsion.getD i true = false then
      vadd d (vsmul (pol.umax * dt * pol.driveForceMultiplier)
        (dirUnit.getD i vzero))
    else d)
  if dataclassAccepts dronePositionsFields gentlePlanKwargs then
    Except.ok (Plan.dronePositions ⟨newPositions, applyRepulsion, targetIndices⟩)
  else
    Except.error "TypeError: DronePositions.__init__() got an unexpected keyword argument 'gcm'"

/-- The job scan at the top of `ShepherdPolicy.plan` (policy.py 591-600):
walk the job list; at the *first* active job with a non-null target, record
that target and whether it is satisfied, and stop.  Returns the recorded
target and the final value of `all_jobs_satisfied`. -/
def scanJobs (world : SState) : List Job → (Option Target × Bool)
  | [] => (none, true)
  | j :: rest =>
    match j.target with
    | some t =>
        if j.isActive then (some t, is_goal_satisfied world t)
        else scanJobs world rest
    | none => scanJobs world rest

/-- The payload of a successful planning call (`none` for a raise). -/
def planOk : Except String Plan → Option Plan
  | Except.ok p => some p
  | Except.error _ => none

/-- The message of a raised planning call (`none` for a normal return). -/
def planError : Except String Plan → Option String
  | Except.error m => some m
  | Except.ok _ => none

/-- `ShepherdPolicy.plan`.  If `all_jobs_satisfied` survives the scan, the
policy returns `DoNothing`; otherwise it dispatches on the strategy mode.
The default preset's mode is `"gentle"` (modelled from the spec, see
`ShepherdPolicy`), so dispatch goes to `_gentle_plan`. -/
def policyPlan (pol : ShepherdPolicy) (world : SState) (jobs : List Job)
    (dt : ℚ) : Except String Plan :=
  let scan := scanJobs world jobs
  if scan.2 then Except.ok Plan.doNothing
  else
    let G := gcm world.flock
    gentlePlan pol world scan.1 G dt

/-! ## `simulation/world.py`: the `World` and its step

Fields stored by `World.__init__` but never read by any of the embedded
operations (`target`, `graze_alpha`, `wall_follow_boost`,
`stuck_speed_ratio`, `near_wall_ratio`, `seed`) are omitted; the
`numpy.random.Generator` is modelled by the explicit `Rand` streams. -/

inductive Boundary where
  | reflect | wrap | bnone
deriving DecidableEq, Repr

structure World where
  P : List Vec2
  V : List Vec2
  dogs : List Vec2
  applyRepulsion : List Bool
  paused : Bool
  polys : List (List Vec2)
  ra : ℚ
  rs : ℚ
  kNN : ℕ
  dt : ℚ
  vmax : ℚ
  umax : ℚ
  wr : ℚ
  wa : ℚ
  ws : ℚ
  wm : ℚ
  wAlign : ℚ
  sigma : ℚ
  grazeP : ℚ
  boundary : Boundary
  xmin : ℚ
  xmax : ℚ
  ymin : ℚ
  ymax : ℚ
  restitution : ℚ
  obstacleInfluence : ℚ
  wObs : ℚ
  wTan : ℚ
  keepOut : ℚ
  worldKeepOut : ℚ
  enforceKeepout : Bool
  flock : List ℚ
  rAttr : ℚ
  nbIdx : List (List ℤ)
  prevP : List Vec2
  rrCursor : ℕ

/-- Per-agent random draws for one tick: the `rng.random()` Bernoulli draw
and the two `rng.normal(size=2)` draws of `_handle_far_sheep` /
`_handle_near_sheep`, indexed by agent. -/
structure Rand where
  grazeU : ℕ → ℚ
  farNormal : ℕ → Vec2
  nearNormal : ℕ → Vec2

/-- `self.eps_move = max(1e-6, 0.4*self.ra)`. -/
def World.epsMove (w : World) : ℚ := max (1/1000000) (2/5 * w.ra)

/-- `self.use_neighbor_cache = (self.N >= 512)`. -/
def World.useNeighborCache (w : World) : Bool := 512 ≤ w.P.length

/-- Comparison against a possibly-infinite signed distance (`none` models
`np.inf`, produced when there are no polygons). -/
def sLeq : Option ℚ → ℚ → Bool
  | none, _ => false
  | some s, c => s ≤ c

/-! ### Vectorized geometry kernels (world.py 179-323) -/

/-- `World._point_in_poly_batch` at one query point (the world's ray-cast,
with its `1e-12` denominator guard; distinct from the policy's PIP). -/
def pointInPolyWorld (p : Vec2) (V : List Vec2) : Bool :=
  let n := V.length
  ((List.range n).foldl (fun (st : Bool × ℕ) k =>
    let vi := V.getD k vzero
    let vj := V.getD st.2 vzero
    let denom := vj.y - vi.y
    let inside :=
      if ((decide (vi.y > p.y)) != (decide (vj.y > p.y))) ∧
          p.x < (vj.x - vi.x) * (p.y - vi.y) / (denom + 1/1000000000000) + vi.x
      then !st.1 else st.1
    (inside, k)) (false, n - 1)).1

/-- Precomputed edge vectors `E = np.roll(V, -1) - V`. -/
def edgeVecs (V : List Vec2) : List Vec2 :=
  (List.range V.length).map (fun k =>
    vsub (V.getD ((k + 1) % V.length) vzero) (V.getD k vzero))

/-- Precomputed edge lengths. -/
def edgeLens (V : List Vec2) : List ℚ := (edgeVecs V).map vnorm

/-- Precomputed outward unit normals (edge rotated 90 degrees clockwise;
degenerate edges keep the unnormalized rotation, as in source). -/
def edgeNormals (V : List Vec2) : List Vec2 :=
  (List.range V.length).map (fun k =>
    let e := (edgeVecs V).getD k vzero
    let l := (edgeLens V).getD k 0
    if l > 1/1000000000 then ⟨e.y / l, -e.x / l⟩ else ⟨e.y, -e.x⟩)

/-- `World._closest_point_on_polygon` at one query point: closest boundary
point, normal of the closest edge, and signed distance (negative inside).
An empty polygon returns `(p, 0, 0)` (unreachable: polygons are nonempty). -/
def closestPointWorld (p : Vec2) (V : List Vec2) : Vec2 × Vec2 × ℚ :=
  let n := V.length
  let best := (List.range n).foldl
    (fun (best : Option (ℚ × Vec2 × Vec2)) j =>
      let v0 := V.getD j vzero
      let v1 := V.getD ((j + 1) % n) vzero
      let edge := vsub v1 v0
      let l := (edgeLens V).getD j 0
      let t := if l > 1/1000000000
        then clip (vdot (vsub p v0) edge / (l * l)) 0 1 else 0
      let cand := vadd v0 (vsmul t edge)
      let d2 := vnorm2 (vsub p cand)
      match best with
      | none => some (d2, cand, (edgeNormals V).getD j vzero)
      | some (bd, _, _) =>
          if d2 < bd then some (d2, cand, (edgeNormals V).getD j vzero) else best)
    none
  match best with
  | none => (p, vzero, 0)
  | some (d2, q, nr) =>
      let s := ratSqrt d2
      (q, nr, if pointInPolyWorld p V then -s else s)

/-- `World._nearest_polygon` at one query point: over all polygons, keep the
one minimizing `|s|`.  `none` signed distance models `np.inf` (no polygons). -/
def nearestPolygon (p : Vec2) (polys : List (List Vec2)) :
    Vec2 × Vec2 × Option ℚ :=
  polys.foldl (fun best poly =>
    let r := closestPointWorld p poly
    match best.2.2 with
    | none => (r.1, r.2.1, some r.2.2)
    | some bs => if |r.2.2| < |bs| then (r.1, r.2.1, some r.2.2) else best)
    (vzero, vzero, none)

/-- `World._rect_signed_distance` at one point: distance to the nearest wall
and its inward normal (`np.argmin` first-occurrence tie-break). -/
def rectSignedDistance (w : World) (p : Vec2) : ℚ × Vec2 :=
  let dl := p.x - w.xmin
  let dr := w.xmax - p.x
  let db := p.y - w.ymin
  let dtp := w.ymax - p.y
  let ds := min (min dl dr) (min db dtp)
  let nrm : Vec2 :=
    if dl ≤ dr ∧ dl ≤ db ∧ dl ≤ dtp then ⟨1, 0⟩
    else if dr ≤ db ∧ dr ≤ dtp then ⟨-1, 0⟩
    else if db ≤ dtp then ⟨0, 1⟩
    else ⟨0, -1⟩
  (ds, nrm)

/-- `World._obstacle_avoid` at one point: ramped avoidance normal, tangent,
and signed distance (`none` = `np.inf` when there are no polygons). -/
def obstacleAvoid (w : World) (p : Vec2) : Vec2 × Vec2 × Option ℚ :=
  if w.polys.isEmpty then (vzero, vzero, none)
  else
    let r := nearestPolygon p w.polys
    let s := (r.2.2).getD 0
    let wgt := clip (1 - |s| / w.obstacleInfluence) 0 1
    let avoid := vsmul wgt r.2.1
    let tan : Vec2 := ⟨-(r.2.1).y, (r.2.1).x⟩
    (avoid, tan, some s)

/-! ### Neighbor operations (world.py 498-590) -/

/-- `World._repel_close_vec` at agent `i`: sum of `(P_i - P_j)/(|P_i-P_j| +
1e-9)` over agents `j` with `1e-18 < |P_i - P_j|^2 < ra^2`. -/
def repelClose (P : List Vec2) (i : ℕ) (ra : ℚ) : Vec2 :=
  let pi := P.getD i vzero
  (List.range P.length).foldl (fun acc j =>
    let dvec := vsub (P.getD j vzero) pi
    let d2 := vnorm2 dvec
    if 1/1000000000000000000 < d2 ∧ d2 < ra * ra then
      vadd acc (vsmul (-(1 / (vnorm dvec + 1/1000000000))) dvec)
    else acc) vzero

/-- Insertion sort of indices by a rational key (index order on ties):
model of the `argpartition`-based nearest-`k` selection. -/
def sortByKey (key : ℕ → ℚ) : List ℕ → List ℕ
  | [] => []
  | x :: xs =>
    let rec ins (x : ℕ) : List ℕ → List ℕ
      | [] => [x]
      | y :: ys => if key x < key y ∨ (key x = key y ∧ x ≤ y)
          then x :: y :: ys else y :: ins x ys
    ins x (sortByKey key xs)

/-- `World._neighbors_within`: indices `j ≠ i` with `|P_i - P_j|^2 ≤ r2`,
capped at the `maxK` nearest.  The cached path (flocks of at least 512) uses
the stored neighbor rows; the uncached path scans all agents. -/
def neighborsWithin (w : World) (P : List Vec2) (i : ℕ) (r2 : ℚ)
    (maxK : Option ℕ) : List ℕ :=
  let pi := P.getD i vzero
  let fullScan : List ℕ :=
    let d2 := fun j => vnorm2 (vsub (P.getD j vzero) pi)
    let cand := (List.range P.length).filter (fun j => 0 < d2 j ∧ d2 j ≤ r2)
    match maxK with
    | some k => if k < cand.length then (sortByKey d2 cand).take k else cand
    | none => cand
  if w.useNeighborCache then
    let idx := (w.nbIdx.getD i []).filter (fun v => 0 ≤ v)
    if idx.length = 0 then fullScan
    else
      let cand := idx.map (fun v => v.toNat)
      let d2 := fun j => vnorm2 (vsub (P.getD j vzero) pi)
      let kept := cand.filter (fun j => d2 j ≤ r2)
      match maxK with
      | some k => if k < kept.length then (sortByKey d2 kept).take k else kept
      | none => kept
  else fullScan

/-- `World._lcm_vec`: local center of mass over neighbors within `r_attr`
(`P_i` itself when there are none, so the attraction vanishes). -/
def lcmVec (w : World) (P : List Vec2) (i : ℕ) : Vec2 :=
  let idx := neighborsWithin w P i (w.rAttr * w.rAttr) (some w.kNN)
  if idx.length = 0 then P.getD i vzero
  else vsmul (1 / (idx.length : ℚ)) (idx.foldl (fun a j => vadd a (P.getD j vzero)) vzero)

/-- `World._align_vec`: normalized mean velocity of the same neighbor set
(zero when there are none or the mean velocity is zero). -/
def alignVec (w : World) (P V : List Vec2) (i : ℕ) : Vec2 :=
  let idx := neighborsWithin w P i (w.rAttr * w.rAttr) (some w.kNN)
  if idx.length = 0 then vzero
  else
    let vbar := vsmul (1 / (idx.length : ℚ))
      (idx.foldl (fun a j => vadd a (V.getD j vzero)) vzero)
    let n := ratSqrt (vnorm2 vbar)
    if n = 0 then vzero else vsmul (1 / (n + 1/1000000000)) vbar

/-! ### Grazing and flocking rules (world.py 698-911) -/

/-- The grazing decay factor (`decay = 0.80` in `_handle_far_sheep`). -/
def grazeDecay : ℚ := 4/5

/-- Loop body of `_handle_far_sheep` for agent `i`.  State: the (mutated)
positions and velocities plus the accumulating `V_new` array.  The Bernoulli
decay branch scales `V[i]` by `decay` and advances `P[i]` in place, leaving
`V_new[i]` at its zero initialization. -/
def farBody (w : World) (rnd : Rand)
    (st : List Vec2 × List Vec2 × List Vec2) (i : ℕ) :
    List Vec2 × List Vec2 × List Vec2 :=
  let P := st.1
  let V := st.2.1
  let Vnew := st.2.2
  if w.grazeP < 1 ∧ w.grazeP < rnd.grazeU i then
    let vi := vsmul grazeDecay (V.getD i vzero)
    (P.set i (vadd (P.getD i vzero) (vsmul w.dt vi)), V.set i vi, Vnew)
  else
    let rndVec := vsmul (1/5) (rnd.farNormal i)
    let R := repelClose P i w.ra
    let H0 := vadd (vsmul w.wr R) rndVec
    let h0 := normU H0
    let ob := if w.polys.isEmpty then (vzero, vzero, (none : Option ℚ))
      else obstacleAvoid w (P.getD i vzero)
    let nrmF := ob.1
    let tngF := ob.2.1
    let sFar := ob.2.2
    let H1 := h0
    let H2 := if vdot H1 nrmF < 0 then vadd H1 (vsmul w.wTan tngF) else H1
    let H3 := vadd H2 (vsmul (1/2 * w.wObs) nrmF)
    let H4 :=
      if sLeq sFar w.keepOut then
        let l := ratSqrt (vdot nrmF nrmF) + 1/1000000000000
        let nU := vsmul (1/l) nrmF
        let into := vdot H3 nU
        if into < 0 then vsub H3 (vsmul into nU) else H3
      else H3
    let hn := vnorm H4
    let h := if hn > 0 then vsmul (1/hn) H4 else h0
    let vDes := vsmul w.vmax h
    let vNew0 := vadd (vsmul grazeDecay (V.getD i vzero)) (vsmul (1 - grazeDecay) vDes)
    let sp := vnorm vNew0
    let vNew := if sp > w.vmax then vsmul (w.vmax / sp) vNew0 else vNew0
    (P, V, Vnew.set i vNew)

/-- `World._handle_far_sheep`: returns the positions and velocities as
mutated by the loop, together with the returned `V_new` array (the grazing
contribution used in the blend).  The `G` parameter of the source method is
never read and is omitted. -/
def handleFarSheep (w : World) (rnd : Rand) (P V : List Vec2) :
    List Vec2 × List Vec2 × List Vec2 :=
  (List.range P.length).foldl (farBody w rnd) (P, V, List.replicate P.length vzero)

/-- `World._handle_near_sheep`: flocking-rule candidate velocities.
`dogDist2` is the (masked) sheep-by-drone squared-distance matrix computed
at the top of `_sheep_step` from the pre-step positions, while the direction
`P - D` uses the current (far-handler-mutated) positions, as in source.
(`inv_d = 1/d` is `inf` in numpy when a sheep sits exactly on a drone; the
model's `1/0 = 0` differs there; no configuration in this file hits it.) -/
def handleNearSheep (w : World) (rnd : Rand) (P V : List Vec2)
    (dogDist2 : List (List ℚ)) : List Vec2 :=
  let N := P.length
  let ob := fun (i : ℕ) =>
    if w.polys.isEmpty then (vzero, vzero, (none : Option ℚ))
    else obstacleAvoid w (P.getD i vzero)
  let Stotal : ℕ → Vec2 := fun i =>
    (List.range w.dogs.length).foldl (fun acc j =>
      let D := w.dogs.getD j vzero
      let dsq := (dogDist2.getD i []).getD j 0
      let d := ratSqrt dsq
      let push := smooth_push d w.rs
      let invd := 1 / d
      vadd acc (vsmul (push * invd) (vsub (P.getD i vzero) D))) vzero
  (List.range N).map (fun i =>
    let R := repelClose P i w.ra
    let A := vsub (lcmVec w P i) (P.getD i vzero)
    let S := Stotal i
    let AL := alignVec w P V i
    let velSq := vnorm2 (V.getD i vzero)
    let velNorm := if velSq > 0 then ratSqrt velSq else 0
    let prev := if velSq > 0
      then vsmul (1 / (velNorm + 1/1000000000)) (V.getD i vzero) else vzero
    let H0 := vadd (vadd (vadd (vadd (vsmul w.wr R) (vsmul w.wa A))
      (vsmul w.ws S)) (vsmul w.wm prev)) (vsmul w.wAlign AL)
    let nrm := (ob i).1
    let tng := (ob i).2.1
    let s := (ob i).2.2
    let H1 := vadd H0 (vsmul w.wObs nrm)
    let H2 := if vdot tng tng > 0 ∧ vdot H1 nrm < 0
      then vadd H1 (vsmul w.wTan tng) else H1
    let H3 :=
      if sLeq s w.keepOut then
        let l := ratSqrt (vdot nrm nrm) + 1/1000000000000
        let nU := vsmul (1/l) nrm
        let into := vdot H2 nU
        if into < 0 then vsub H2 (vsmul into nU) else H2
      else H2
    let noise0 := vsmul (w.sigma * ratSqrt w.dt) (rnd.nearNormal i)
    let noise := if velNorm > 3/10 * w.vmax then vsmul (1/2) noise0 else noise0
    let H := vadd H3 noise
    let hSq := vnorm2 H
    let h := if hSq > 0 then vsmul (1 / (ratSqrt hSq + 1/1000000000)) H else vzero
    vsmul w.vmax h)

/-- The flock blend of `_sheep_step` (world.py 733):
`v_new = v_near * flock + (1 - flock) * v_far`. -/
def blendVel (f : ℚ) (vnear vfar : Vec2) : Vec2 :=
  vadd (vsmul f vnear) (vsmul (1 - f) vfar)

/-- The masked sheep-by-drone squared distance matrix of `_sheep_step`
(world.py 704-708): drones with `apply_repulsion = 0` read as distance
squared `1_000_000`. -/
def dogDistSq (w : World) : List (List ℚ) :=
  w.P.map (fun p =>
    (List.range w.dogs.length).map (fun j =>
      if w.applyRepulsion.getD j false = false then 1000000
      else vnorm2 (vsub p (w.dogs.getD j vzero))))

/-- The per-agent repulsion pressure of `_sheep_step` (world.py 711-716):
`1 - prod_j (1 - smooth_push(d_ij, rs))`. -/
def repelLevel (w : World) (dd2 : List (List ℚ)) (i : ℕ) : ℚ :=
  1 - ((dd2.getD i []).map (fun dsq => 1 - smooth_push (ratSqrt dsq) w.rs)).prod

/-- The continuous flock-factor update of `_sheep_step` (world.py 719-726):
asymmetric first-order low-pass followed by a clip to `[0, 1]`. -/
def flockUpdate (w : World) (dd2 : List (List ℚ)) : List ℚ :=
  (List.range w.P.length).map (fun i =>
    let f := w.flock.getD i 0
    let delta := repelLevel w dd2 i - f
    let rate : ℚ := if delta > 0 then 1/2 else 1/60
    clip (f + rate * delta * w.dt) 0 1)

/-! ### Keep-out enforcement and boundaries (world.py 338-496, 594-670) -/

/-- `World._resolve_polygon_penetration`.  Positions receive the capped
outward correction (`self.P[mask] += correction_vec` is an effective
in-place fancy-index assignment).  The velocity updates in the source go
through `self.V[mask][neg] -= ...` and `self.V[mask][pos_mask] += ...`:
boolean fancy indexing produces a temporary copy, so those writes never
reach `self.V` and the velocity part of the method is a no-op.  Returns the
world plus the per-agent correction vectors and mask. -/
def resolvePolygonPenetration (w : World) : World × List Vec2 × List Bool :=
  if w.polys.isEmpty then
    (w, List.replicate w.P.length vzero, List.replicate w.P.length false)
  else
    let N := w.P.length
    let data := (List.range N).map (fun i =>
      let p := w.P.getD i vzero
      let r := nearestPolygon p w.polys
      let s := (r.2.2).getD 0
      let pen := w.keepOut - s
      if pen > 0 then
        let base := 1/4 * (w.vmax * w.dt)
        let maxCorr := if pen > 2 * base then 2 * base else base
        let corr := min pen maxCorr
        let nr := r.2.1
        let ln := ratSqrt (vnorm2 nr) + 1/1000000000000
        (vsmul corr (vsmul (1/ln) nr), true)
      else (vzero, false))
    let P' := (List.range N).map (fun i =>
      vadd (w.P.getD i vzero) (data.getD i (vzero, false)).1)
    ({w with P := P'}, data.map (fun d => d.1), data.map (fun d => d.2))

/-- `World._resolve_world_keepout`: identical policy against the nearest
wall's inward normal and the `world_keep_out` band.  The velocity updates
are no-ops for the same fancy-indexing reason as the polygon pass. -/
def resolveWorldKeepout (w : World) : World × List Vec2 × List Bool :=
  let N := w.P.length
  let data := (List.range N).map (fun i =>
    let p := w.P.getD i vzero
    let r := rectSignedDistance w p
    let pen := w.worldKeepOut - r.1
    if pen > 0 then
      let base := 1/4 * (w.vmax * w.dt)
      let maxCorr := if pen > 2 * base then 2 * base else base
      let corr := min pen maxCorr
      (vsmul corr r.2, true)
    else (vzero, false))
  let P' := (List.range N).map (fun i =>
    vadd (w.P.getD i vzero) (data.getD i (vzero, false)).1)
  ({w with P := P'}, data.map (fun d => d.1), data.map (fun d => d.2))

/-- `World.enforce_keepout_all`: polygon pass, then world pass, then the
conflict pass that halves the smaller of two nearly-opposite corrections
(this last pass updates `self.V[idx]` by integer index, which is effective). -/
def enforceKeepoutAll (w : World) : World :=
  let r1 := resolvePolygonPenetration w
  let polyCorr := r1.2.1
  let polyMask := r1.2.2
  let r2 := resolveWorldKeepout r1.1
  let wallCorr := r2.2.1
  let wallMask := r2.2.2
  (List.range w.P.length).foldl (fun wc i =>
    if polyMask.getD i false ∧ wallMask.getD i false then
      let pc := polyCorr.getD i vzero
      let wcr := wallCorr.getD i vzero
      let pn := ratSqrt (vnorm2 pc) + 1/1000000000000
      let wn := ratSqrt (vnorm2 wcr) + 1/1000000000000
      let dotp := vdot (vsmul (1/pn) pc) (vsmul (1/wn) wcr)
      if dotp < -(1/2) then
        let pMag := ratSqrt (vnorm2 pc)
        let wMag := ratSqrt (vnorm2 wcr)
        let red := if pMag > wMag then vsmul (1/2) wcr else vsmul (1/2) pc
        {wc with
          P := wc.P.set i (vsub (wc.P.getD i vzero) red),
          V := wc.V.set i (vsub (wc.V.getD i vzero)
            (vsmul (3/10) (vsmul (1 / (w.dt + 1/1000000000000)) red)))}
      else wc
    else wc) r2.1

/-- Toroidal wrap of one coordinate into `[lo, hi)`. -/
def wrapCoord (x lo hi : ℚ) : ℚ := lo + qmod (x - lo) (hi - lo)

/-- `World._apply_bounds_sheep_inplace`: wrap adds the wrap displacement
over `dt` to the velocity; reflect mirrors positions (four sequential wall
checks), rescales the reflected velocity components by the restitution, and
blends in 30% of the correction velocity for agents that moved. -/
def applyBoundsSheep (w : World) : World :=
  match w.boundary with
  | Boundary.bnone => w
  | Boundary.wrap =>
    let P' := w.P.map (fun p =>
      ⟨wrapCoord p.x w.xmin w.xmax, wrapCoord p.y w.ymin w.ymax⟩)
    let V' := (List.range w.P.length).map (fun i =>
      vadd (w.V.getD i vzero)
        (vsmul (1 / (w.dt + 1/1000000000000))
          (vsub (P'.getD i vzero) (w.P.getD i vzero))))
    {w with P := P', V := V'}
  | Boundary.reflect =>
    let upd := (List.range w.P.length).map (fun i =>
      let p0 := w.P.getD i vzero
      let v0 := w.V.getD i vzero
      let s1 : ℚ × ℚ := if p0.x < w.xmin
        then (w.xmin + (w.xmin - p0.x), |v0.x| * w.restitution)
        else (p0.x, v0.x)
      let s2 : ℚ × ℚ := if s1.1 > w.xmax
        then (w.xmax - (s1.1 - w.xmax), -|s1.2| * w.restitution)
        else s1
      let t1 : ℚ × ℚ := if p0.y < w.ymin
        then (w.ymin + (w.ymin - p0.y), |v0.y| * w.restitution)
        else (p0.y, v0.y)
      let t2 : ℚ × ℚ := if t1.1 > w.ymax
        then (w.ymax - (t1.1 - w.ymax), -|t1.2| * w.restitution)
        else t1
      let pf : Vec2 := ⟨s2.1, t2.1⟩
      let vf : Vec2 := ⟨s2.2, t2.2⟩
      let disp := vsub pf p0
      let moved := |disp.x| > 1/1000000000 ∨ |disp.y| > 1/1000000000
      let vOut := if moved
        then vadd (vsmul (7/10) vf)
          (vsmul (3/10) (vsmul (1 / (w.dt + 1/1000000000000)) disp))
        else vf
      (pf, vOut))
    {w with P := upd.map (fun u => u.1), V := upd.map (fun u => u.2)}

/-- `World._apply_bounds_point`: boundary rule for controller positions
(positions only, no velocity state). -/
def applyBoundsPoint (w : World) (pos : List Vec2) : List Vec2 :=
  match w.boundary with
  | Boundary.bnone => pos
  | Boundary.wrap => pos.map (fun p =>
      ⟨wrapCoord p.x w.xmin w.xmax, wrapCoord p.y w.ymin w.ymax⟩)
  | Boundary.reflect => pos.map (fun p =>
      let x1 := if p.x < w.xmin then w.xmin + (w.xmin - p.x) else p.x
      let x2 := if x1 > w.xmax then w.xmax - (x1 - w.xmax) else x1
      let y1 := if p.y < w.ymin then w.ymin + (w.ymin - p.y) else p.y
      let y2 := if y1 > w.ymax then w.ymax - (y1 - w.ymax) else y1
      ⟨x2, y2⟩)

/-! ### Neighbor-cache refresh (world.py 951-971) -/

/-- Model of `_kNN_numba`: the `K` nearest agents to agent `i` by squared
distance, excluding `i` itself (index order on ties; the numpy fallback's
`argpartition` leaves the selection order unspecified, so the sorted
selection is the deterministic semantics common to both). -/
def kNNIdx (P : List Vec2) (i K : ℕ) : List ℤ :=
  let d2 := fun j => vnorm2 (vsub (P.getD j vzero) (P.getD i vzero))
  (((sortByKey d2 ((List.range P.length).filter (fun j => j ≠ i))).take K).map
    (fun n => (n : ℤ)))

/-- `World._refresh_neighbors`: recompute rows for agents that moved more
than `eps_move` plus a round-robin slab, and advance the cursor. -/
def refreshNeighbors (w : World) : World :=
  let N := w.P.length
  let moved := fun i =>
    vnorm (vsub (w.P.getD i vzero) (w.prevP.getD i vzero)) > w.epsMove
  let movedCount := ((List.range N).filter (fun i => moved i)).length
  let half := if movedCount < max 2 (N / 20) then max 1 (N / 16)
    else max 1 (N / 12)
  let start := w.rrCursor
  let stop := min (start + half) N
  let need := fun i => moved i ∨ (start ≤ i ∧ i < stop)
  let cursor' := if N ≤ stop then 0 else stop
  let nbIdx' := (List.range N).map (fun i =>
    if need i then kNNIdx w.P i w.kNN else w.nbIdx.getD i [])
  let prevP' := (List.range N).map (fun i =>
    if need i then w.P.getD i vzero else w.prevP.getD i vzero)
  {w with nbIdx := nbIdx', prevP := prevP', rrCursor := cursor'}

/-! ### `World._sheep_step` and `World.step` (world.py 698-949) -/

/-- `World._sheep_step`.  The final "safety" pass of the source replaces
non-finite positions; no rational is non-finite, so it is the identity in
the model. -/
def sheepStep (w : World) (rnd : Rand) : World :=
  let dd2 := dogDistSq w
  let flock' := flockUpdate w dd2
  let far := handleFarSheep w rnd w.P w.V
  let P1 := far.1
  let V1 := far.2.1
  let vfar := far.2.2
  let vnear := handleNearSheep w rnd P1 V1 dd2
  let vnew := (List.range w.P.length).map (fun i =>
    blendVel (flock'.getD i 0) (vnear.getD i vzero) (vfar.getD i vzero))
  let P2 := (List.range w.P.length).map (fun i =>
    vadd (P1.getD i vzero) (vsmul w.dt (vnew.getD i vzero)))
  let w1 := {w with P := P2, V := vnew, flock := flock'}
  if w.enforceKeepout then applyBoundsSheep (enforceKeepoutAll w1) else w1

/-- Result of `World.step`: normal return, or a raised exception together
with the world as mutated up to the raise point. -/
inductive StepResult where
  | ok (w : World)
  | err (msg : String) (w : World)

def StepResult.okW : StepResult → Option World
  | StepResult.ok w => some w
  | StepResult.err _ _ => none

def StepResult.isErr : StepResult → Bool
  | StepResult.ok _ => false
  | StepResult.err _ _ => true

/-- The world carried by a `StepResult` (the post-raise world for errors). -/
def StepResult.world : StepResult → World
  | StepResult.ok w => w
  | StepResult.err _ w => w

/-- `World.step` (world.py 914-938): paused worlds return immediately; the
neighbor cache refresh runs next (large flocks only); then the plan is
applied — `DoNothing` zeroes the repulsion flags, `DronePositions` validates
the array lengths against the controller count and raises `ValueError` on a
mismatch — and finally the sheep advance. -/
def World.step (w : World) (plan : Plan) (rnd : Rand) : StepResult :=
  if w.paused then StepResult.ok w
  else
    let w1 := if w.useNeighborCache then refreshNeighbors w else w
    match plan with
    | Plan.doNothing =>
        StepResult.ok (sheepStep
          {w1 with applyRepulsion := List.replicate w1.dogs.length false} rnd)
    | Plan.dronePositions d =>
        let M := w1.dogs.length
        if d.positions.length ≠ M ∨ d.applyRepulsion.length ≠ M then
          StepResult.err
            "ValueError: DronePositions plan must have matching positions and repulsion flags."
            w1
        else
          StepResult.ok (sheepStep
            {w1 with dogs := applyBoundsPoint w1 d.positions,
                     applyRepulsion := d.applyRepulsion} rnd)

/-! ## Concrete configurations used by witnesses and counterexamples

Every coordinate below is chosen so that each square root the code takes is
of a perfect square of a rational, making `ratSqrt` agree with the real
square root throughout the evaluations. -/

/-- A policy with the modelled default configuration (base weights `1`,
gentle strategy; see `ShepherdPolicy`) and legacy parameters `fN = 3`,
`umax = 1.5`, `too_close = 6`, `collect_standoff = 4`. -/
def exPolicy : ShepherdPolicy :=
  { fN := 3, umax := 3/2, tooClose := 6, collectStandoff := 4,
    conditionallyApplyRepulsion := true,
    gcmWeight := 1, goalWeight := 1, closenessWeight := 1,
    driveForceMultiplier := 1 }

/-- Two sheep on the x-axis with two drones to their right. -/
def c1State : SState :=
  { flock := [⟨0,0⟩, ⟨4,0⟩], drones := [⟨10,0⟩, ⟨12,0⟩], polygons := [], jobs := [] }

/-- A far circular goal, not containing any sheep. -/
def c1Target : Target := Target.circle ⟨100,0⟩ (some 1)

/-- Two sheep, one drone. -/
def c2State : SState :=
  { flock := [⟨0,0⟩, ⟨2,0⟩], drones := [⟨10,0⟩], polygons := [], jobs := [] }

/-- A job record with the given activity flag and target. -/
def mkJob (act : Bool) (t : Option Target) : Job :=
  { target := t, remainingTime := none, isActive := act, drones := 1,
    status := JobStatus.running, startAt := none, completedAt := none,
    scenarioId := none, maintainUntil := MaintainUntil.targetIsReached,
    createdAt := 0, updatedAt := 0, id := 0 }

/-- An active job whose circular target (radius 10 about the origin)
contains both sheep of `c2State`: its goal is satisfied. -/
def c6JobSat : Job := mkJob true (some (Target.circle ⟨0,0⟩ (some 10)))

/-- An active job whose target `c1Target` is not satisfied on `c2State`. -/
def c6JobUnsat : Job := mkJob true (some c1Target)

/-- Three sheep on the x-axis; drone 0 far right, drone 1 just past the
rightmost sheep.  With `fN = 8/5` the mean cohesiveness is exactly `0.3`. -/
def c3Policy : ShepherdPolicy := { exPolicy with fN := 8/5 }

def c3State : SState :=
  { flock := [⟨0,0⟩, ⟨10,0⟩, ⟨14,0⟩], drones := [⟨300,0⟩, ⟨15,0⟩],
    polygons := [], jobs := [] }

/-- A one-sheep world: no drones, no polygons, no boundary, default
physical parameters (`ra=4, rs=65, dt=1, vmax=1`), pure-grazing flock
factor, the sheep at the domain center with velocity `(1/2, 0)`. -/
def c4World : World :=
  { P := [⟨100,100⟩], V := [⟨1/2,0⟩], dogs := [], applyRepulsion := [],
    paused := false, polys := [],
    ra := 4, rs := 65, kNN := 0, dt := 1, vmax := 1, umax := 3/2,
    wr := 50, wa := 21/20, ws := 100, wm := 20, wAlign := 0, sigma := 3/10,
    grazeP := 1/20, boundary := Boundary.bnone,
    xmin := 0, xmax := 250, ymin := 0, ymax := 250,
    restitution := 17/20, obstacleInfluence := 8, wObs := 4, wTan := 12,
    keepOut := 6, worldKeepOut := 5, enforceKeepout := true,
    flock := [0], rAttr := 30, nbIdx := [[]], prevP := [⟨100,100⟩], rrCursor := 0 }

/-- Random draws putting every agent on the Bernoulli decay branch
(`grazeU = 1 > graze_p`) with zero noise. -/
def rnd0 : Rand := { grazeU := fun _ => 1, farNormal := fun _ => vzero, nearNormal := fun _ => vzero }

/-- A wrap-boundary world on `[0,100]^2`: one fully-flocking sheep just
inside the right edge, at rest, no drones. -/
def c5World : World :=
  { c4World with
    P := [⟨999/10, 50⟩],
    V := [⟨0,0⟩],
    flock := [1],
    boundary := Boundary.wrap,
    xmax := 100,
    ymax := 100,
    prevP := [⟨999/10, 50⟩] }

/-- Draws whose flocking-rule noise pushes the `c5World` sheep straight at
the right wall at full speed. -/
def c5Rand : Rand :=
  { grazeU := fun _ => 1, farNormal := fun _ => vzero, nearNormal := fun _ => ⟨10/3, 0⟩ }

/-- The `c4World`, paused. -/
def c10World : World := { c4World with paused := true }

/-- A `DronePositions` payload with one position but no repulsion flags:
both lengths disagree with `c4World`'s zero controllers. -/
def badPlanData : DronePositionsData :=
  { positions := [vzero], applyRepulsion := [], targetSheepIndices := [] }

/-- Modelled from the spec (claim C3): the assignment loop with the weight
`w_close = w_close_base / M` computed once before the per-drone loop, the
same for every drone — the reading the claim asserts.  Compare
`assignLoop`, translated from the source, where the weight is divided by
`M` again at the top of every iteration. -/
def assignLoopSpecC3 (intrinsic : List XQ) (dDall : List (List ℚ)) (M : ℕ)
    (cw0 : ℚ) : List ℕ :=
  (List.range M).map (fun i =>
    argmaxX (scoreList intrinsic dDall M (cw0 * (1 / (M : ℚ))) i))

/-! ## Claim C1: assignment uniqueness -/

/-- Claim C1, counterexample.  The claim says that in every emitted
`DronePositions` no two valid `target_sheep_indices` are equal (greedy
matching with masking).  The source loop never masks: each drone takes an
independent `argmax`.  On `c1State` (two sheep, two drones, at least as many
sheep as drones) both drones are assigned sheep `0`. -/
theorem C1_counterexample :
    2 ≤ c1State.flock.length ∧ c1State.drones.length = 2 ∧
    (collectPoints exPolicy c1State (gcm c1State.flock) (some c1Target)).2 = [0, 0] :=
  ⟨by decide, by decide, by decide⟩

/-! ## Claim C2: the planner throws on every non-trivial plan -/

/-- Claim C2.  The spec says the planner never throws and that
`DronePositions` carries debug fields `gcm` and `radius`.  The dataclass in
`plan_type.py` declares no such fields, while `_gentle_plan` passes them as
keywords, so the construction raises `TypeError`: on a well-formed world
with one active, unsatisfied job, `plan` raises instead of returning. -/
theorem C2_plan_raises :
    is_goal_satisfied c2State c1Target = false ∧
    planError (policyPlan exPolicy c2State [mkJob true (some c1Target)] 1) =
      some "TypeError: DronePositions.__init__() got an unexpected keyword argument 'gcm'" :=
  ⟨by decide, by decide⟩

/-! ## Claim C3: the closeness weight across the drone loop -/

/-- Claim C3, counterexample.  On `c3State`, the code's cumulative weight
(`w_close_base/M^2` for the second drone) assigns drone 1 to sheep 0, while
the claimed once-computed weight `w_close_base/M` would assign it sheep 2:
the closeness term is not `(w_close_base / M) * dD_ij` for every drone. -/
theorem C3_counterexample :
    (collectPoints c3Policy c3State (gcm c3State.flock) (some c1Target)).2 = [2, 0] ∧
    assignLoopSpecC3
      (intrinsicOf c3Policy c3State.flock (gcm c3State.flock) (some c1Target))
      (dDallOf c3State.flock c3State.drones) 2
      (collectWeights c3Policy c3State.flock (gcm c3State.flock) (some c1Target)).2.2
      = [2, 2] ∧
    ([2, 0] : List ℕ) ≠ [2, 2] :=
  ⟨by decide, by decide, by decide⟩

/-! ## Claim C6: job selection -/

/-- Claim C6, counterexample.  The claim says the policy skips active jobs
whose targets are satisfied and plans for the first active unsatisfied job.
In the source, the scan breaks at the *first* active job with a target
regardless of satisfaction: with a satisfied active job ahead of an
unsatisfied active job, `plan` returns `DoNothing`. -/
theorem C6_counterexample :
    c6JobSat.isActive = true ∧ c6JobUnsat.isActive = true ∧
    is_goal_satisfied c2State (Target.circle ⟨0,0⟩ (some 10)) = true ∧
    is_goal_satisfied c2State c1Target = false ∧
    planOk (policyPlan exPolicy c2State [c6JobSat, c6JobUnsat] 1) = some Plan.doNothing :=
  ⟨rfl, rfl, by decide, by decide, by decide⟩

/-! ## Claim C4: the grazing decay branch -/

/-- Claim C4, counterexample.  The claim says a decay-branch agent
contributes `decay * V_i` to the blend, so with `flock_i = 0` the post-step
velocity would be `decay * V_0 = (2/5, 0)`.  In the source the decay branch
leaves `V_new[i]` at zero (and advances the position in place), so the
post-step velocity is `(0, 0)`. -/
theorem C4_counterexample :
    (World.step c4World Plan.doNothing rnd0).world.flock = [0] ∧
    (World.step c4World Plan.doNothing rnd0).world.V = [(⟨0, 0⟩ : Vec2)] ∧
    vsmul grazeDecay ((⟨1/2, 0⟩ : Vec2)) = (⟨2/5, 0⟩ : Vec2) ∧
    ((⟨0, 0⟩ : Vec2) ≠ (⟨2/5, 0⟩ : Vec2)) :=
  ⟨by decide, by decide, by decide, by decide⟩

/-! ## Claim C5: the speed cap -/

/-- Claim C5, counterexample.  After one step of the wrap-boundary world
`c5World`, the wrap adjustment `V += displacement/dt` leaves the single
agent's speed near the domain width over `dt`: the squared speed exceeds
`(vmax + 1)^2`, far beyond any small `ε`, refuting `|V_i| ≤ vmax + ε`. -/
theorem C5_counterexample :
    (World.step c5World Plan.doNothing c5Rand).isErr = false ∧
    c5World.boundary = Boundary.wrap ∧
    vnorm2 ((World.step c5World Plan.doNothing c5Rand).world.V.getD 0 vzero)
      > (c5World.vmax + 1) ^ 2 :=
  ⟨by decide, rfl, by decide⟩

/-! ## Claim C10: paused worlds are frozen -/

/-- Claim C10: if the world is paused, `World.step` returns immediately
without raising for every plan (even one with mismatched array lengths),
leaving the whole state — positions, velocities, flock factors, controller
positions, repulsion flags, and the neighbor cache — unchanged. -/
theorem C10_paused_step_frozen (w : World) (plan : Plan) (rnd : Rand)
    (h : w.paused = true) : World.step w plan rnd = StepResult.ok w := by
  unfold World.step
  simp [h]

/-- Witness for C10: the paused `c10World` with a mismatched
`DronePositions` plan steps to itself. -/
theorem C10_witness :
    c10World.paused = true ∧
    (badPlanData.positions.length ≠ c10World.dogs.length) ∧
    World.step c10World (Plan.dronePositions badPlanData) rnd0 = StepResult.ok c10World :=
  ⟨rfl, by decide, C10_paused_step_frozen c10World (Plan.dronePositions badPlanData) rnd0 rfl⟩

/-- Claim C5, amended: the flock blend preserves the speed cap.  Whenever
both candidate velocities satisfy `|v|^2 ≤ cap^2` and the blend factor lies
in `[0,1]`, the blended velocity `v_near * flock + (1 - flock) * v_far`
satisfies the cap as well; the cap can only be broken by the later bounds
adjustments (the counterexample uses the wrap displacement). -/
theorem C5_amended_blend_preserves_cap (f vcap : ℚ) (vn vf : Vec2)
    (hf0 : 0 ≤ f) (hf1 : f ≤ 1)
    (hn : vnorm2 vn ≤ vcap ^ 2) (hfar : vnorm2 vf ≤ vcap ^ 2) :
    vnorm2 (blendVel f vn vf) ≤ vcap ^ 2 := by
  have hb : (0:ℚ) ≤ vnorm2 vf := by
    unfold vnorm2
    nlinarith [sq_nonneg vf.x, sq_nonneg vf.y]
  have hm : (0:ℚ) ≤ vcap ^ 2 := sq_nonneg vcap
  have hprod : vnorm2 vn * vnorm2 vf ≤ vcap ^ 2 * (vcap ^ 2) :=
    mul_le_mul hn hfar hb hm
  have hdot2 : (vn.x * vf.x + vn.y * vf.y) ^ 2 ≤ vnorm2 vn * vnorm2 vf := by
    unfold vnorm2
    nlinarith [sq_nonneg (vn.x * vf.y - vn.y * vf.x)]
  have hdot : vn.x * vf.x + vn.y * vf.y ≤ vcap ^ 2 := by
    nlinarith [hdot2, hprod, hm]
  unfold blendVel vadd vsmul vnorm2
  unfold vnorm2 at hn hfar
  dsimp only
  nlinarith [hdot, hn, hfar, sq_nonneg f, sq_nonneg (1 - f),
    mul_nonneg hf0 (sub_nonneg.mpr hf1),
    mul_nonneg (mul_nonneg hf0 (sub_nonneg.mpr hf1))
      (sub_nonneg.mpr hdot)]

/-- Witness for the amended C5 at `flock = 1/2`, `v_near = (1,0)`,
`v_far = (0,1)`, `cap = 1`. -/
theorem C5_amended_witness :
    (0:ℚ) ≤ 1/2 ∧ (1/2:ℚ) ≤ 1 ∧
    vnorm2 (⟨1,0⟩ : Vec2) ≤ (1:ℚ) ^ 2 ∧ vnorm2 (⟨0,1⟩ : Vec2) ≤ (1:ℚ) ^ 2 ∧
    vnorm2 (blendVel (1/2) ⟨1,0⟩ ⟨0,1⟩) ≤ (1:ℚ) ^ 2 :=
  ⟨by norm_num, by norm_num, by decide, by decide,
    C5_amended_blend_preserves_cap (1/2) 1 ⟨1,0⟩ ⟨0,1⟩
      (by norm_num) (by norm_num) (by decide) (by decide)⟩

/-! ## Claim C8: goal satisfaction -/

/-- Claim C8: `is_goal_satisfied` is `true` on an empty flock for every
target; for a circle with a (nonnegative) radius it holds iff every agent's
squared distance to the center is at most the squared radius (equivalently,
distance at most radius); a circle with a null radius is never satisfied on
a non-empty flock; and a polygon target holds iff every agent passes the
ray-cast point-in-polygon test. -/
theorem C8_goal_satisfaction (w : SState) :
    (w.flock = [] → ∀ t, is_goal_satisfied w t = true) ∧
    (∀ c r, 0 ≤ r →
      (is_goal_satisfied w (Target.circle c (some r)) = true ↔
        ∀ p ∈ w.flock, vnorm2 (vsub p c) ≤ r * r)) ∧
    (w.flock ≠ [] → ∀ c, is_goal_satisfied w (Target.circle c none) = false) ∧
    (∀ pts, is_goal_satisfied w (Target.polygon pts) = true ↔
      ∀ p ∈ w.flock, pointInPolyPolicy p pts = true) := by
  refine ⟨?_, ?_, ?_, ?_⟩
  · intro h t
    cases t with
    | circle c r => cases r <;> simp [is_goal_satisfied, h]
    | polygon pts => simp [is_goal_satisfied, h]
  · intro c r _
    by_cases h : w.flock = []
    · simp [is_goal_satisfied, h]
    · simp [is_goal_satisfied, List.isEmpty_iff, h, List.all_eq_true]
  · intro h c
    simp [is_goal_satisfied, List.isEmpty_iff, h]
  · intro pts
    by_cases h : w.flock = []
    · simp [is_goal_satisfied, h]
    · simp [is_goal_satisfied, List.isEmpty_iff, h,
        points_inside_polygon, List.all_map, List.all_eq_true]

/-- Claim C6, amended: the scan behind `ShepherdPolicy.plan` only examines
the first active job with a non-null target.  `plan` returns `DoNothing`
exactly when there is no such job or that job's target is satisfied, and
otherwise it carries that job's target into the planning attempt; a later
active unsatisfied job does not prevent `DoNothing`. -/
theorem C6_amended_first_active (pol : ShepherdPolicy) (world : SState)
    (jobs : List Job) (dt : ℚ) :
    (policyPlan pol world jobs dt = Except.ok Plan.doNothing ↔
      ∀ j, jobs.find? (fun j => j.isActive && j.target.isSome) = some j →
        ∀ t, j.target = some t → is_goal_satisfied world t = true) ∧
    (∀ j, jobs.find? (fun j => j.isActive && j.target.isSome) = some j →
      ∀ t, j.target = some t → (scanJobs world jobs).1 = some t) := by
  have hscan : ((scanJobs world jobs).2 = true ↔
      ∀ j, jobs.find? (fun j => j.isActive && j.target.isSome) = some j →
        ∀ t, j.target = some t → is_goal_satisfied world t = true) ∧
      (∀ j, jobs.find? (fun j => j.isActive && j.target.isSome) = some j →
        ∀ t, j.target = some t → (scanJobs world jobs).1 = some t) := by
    induction jobs with
    | nil => simp [scanJobs]
    | cons j rest ih =>
      cases hjt : j.target with
      | none => simpa [scanJobs, List.find?_cons, hjt] using ih
      | some t =>
        cases hja : j.isActive with
        | false => simpa [scanJobs, List.find?_cons, hjt, hja] using ih
        | true =>
          constructor
          · constructor
            · intro hs j' hj' t' ht'
              rw [List.find?_cons] at hj'
              simp [hjt, hja] at hj'
              subst hj'
              rw [hjt] at ht'
              cases ht'
              simpa [scanJobs, hjt, hja] using hs
            · intro hall
              have := hall j (by simp [List.find?_cons, hjt, hja]) t hjt
              simpa [scanJobs, hjt, hja] using this
          · intro j' hj' t' ht'
            rw [List.find?_cons] at hj'
            simp [hjt, hja] at hj'
            subst hj'
            rw [hjt] at ht'
            cases ht'
            simp [scanJobs, hjt, hja]
  have herr : ∀ tgt G, gentlePlan pol world tgt G dt ≠ Except.ok Plan.doNothing := by
    intro tgt G hcontra
    unfold gentlePlan at hcontra
    rw [if_neg (by decide)] at hcontra
    exact Except.noConfusion hcontra
  constructor
  · cases hs : (scanJobs world jobs).2 with
    | true =>
        constructor
        · intro _
          exact hscan.1.mp hs
        · intro _
          simp [policyPlan, hs]
    | false =>
        constructor
        · intro hcontra
          rw [show policyPlan pol world jobs dt
              = gentlePlan pol world (scanJobs world jobs).1 (gcm world.flock) dt
            from by simp [policyPlan, hs]] at hcontra
          exact absurd hcontra (herr _ _)
        · intro hall
          have := hscan.1.mpr hall
          rw [hs] at this
          exact Bool.noConfusion this
  · exact hscan.2

/-! ### Supporting lemmas on the assignment loop -/

lemma argmaxAux_lt (l : List XQ) : ∀ (ci bi : ℕ) (bv : XQ), bi < ci →
    argmaxAux l ci bi bv < ci + l.length := by
  induction l with
  | nil =>
    intro ci bi bv h
    simpa [argmaxAux] using h
  | cons v rest ih =>
    intro ci bi bv h
    simp only [argmaxAux, List.length_cons]
    split
    · have := ih (ci + 1) ci v (Nat.lt_succ_self ci)
      omega
    · have := ih (ci + 1) bi bv (Nat.lt_succ_of_lt h)
      omega

lemma argmaxX_lt (l : List XQ) (h : l ≠ []) : argmaxX l < l.length := by
  match l with
  | [] => exact absurd rfl h
  | v :: rest =>
    have h1 := argmaxAux_lt rest 1 0 v (by omega)
    simp only [argmaxX, List.length_cons]
    omega

lemma assignGo_mem (intrinsic : List XQ) (dDall : List (List ℚ)) (M : ℕ) :
    ∀ (L : List ℕ) (cw : ℚ) (ix : ℕ), ix ∈ assignGo intrinsic dDall M L cw →
      ∃ i cw', ix = argmaxX (scoreList intrinsic dDall M cw' i) := by
  intro L
  induction L with
  | nil =>
    intro cw ix hix
    simp [assignGo] at hix
  | cons i rest ih =>
    intro cw ix hix
    simp only [assignGo, List.mem_cons] at hix
    cases hix with
    | inl he => exact ⟨i, cw * (1 / (M : ℚ)), he⟩
    | inr hm => exact ih _ ix hm

lemma scoreList_length (intrinsic : List XQ) (dDall : List (List ℚ))
    (M : ℕ) (cw : ℚ) (i : ℕ) :
    (scoreList intrinsic dDall M cw i).length = intrinsic.length := by
  simp [scoreList]

lemma intrinsicOf_length (pol : ShepherdPolicy) (P : List Vec2) (G : Vec2)
    (target : Option Target) : (intrinsicOf pol P G target).length = P.length := by
  simp [intrinsicOf]

/-- Claim C1, amended: each drone independently takes the `argmax` of its
score vector over all sheep, so every entry of `target_sheep_indices` is a
valid sheep index (below the flock size) whenever the flock is non-empty —
but pairwise distinctness is not guaranteed (see the counterexample, where
both drones are assigned the same sheep). -/
theorem C1_amended_valid_index (pol : ShepherdPolicy) (world : SState)
    (G : Vec2) (target : Option Target) (h : world.flock ≠ []) :
    ∀ ix ∈ (collectPoints pol world G target).2, ix < world.flock.length := by
  intro ix hix
  have hmem : ix ∈ assignLoop (intrinsicOf pol world.flock G target)
      (dDallOf world.flock world.drones) world.drones.length
      (collectWeights pol world.flock G target).2.2 := by
    simpa [collectPoints] using hix
  obtain ⟨i, cw', rfl⟩ := assignGo_mem _ _ _ _ _ _ hmem
  have hlen : (scoreList (intrinsicOf pol world.flock G target)
      (dDallOf world.flock world.drones) world.drones.length cw' i).length
      = world.flock.length := by
    rw [scoreList_length, intrinsicOf_length]
  have hne : scoreList (intrinsicOf pol world.flock G target)
      (dDallOf world.flock world.drones) world.drones.length cw' i ≠ [] := by
    intro hnil
    rw [hnil] at hlen
    exact h (List.eq_nil_of_length_eq_zero hlen.symm)
  have := argmaxX_lt _ hne
  rwa [hlen] at this

/-- Witness for the amended C1 on the two-sheep, two-drone configuration. -/
theorem C1_amended_witness :
    c1State.flock ≠ [] ∧
    ∀ ix ∈ (collectPoints exPolicy c1State (gcm c1State.flock) (some c1Target)).2,
      ix < c1State.flock.length :=
  ⟨by decide, C1_amended_valid_index exPolicy c1State (gcm c1State.flock)
    (some c1Target) (by decide)⟩

lemma assignGo_get? (intrinsic : List XQ) (dDall : List (List ℚ)) (M : ℕ) :
    ∀ (L : List ℕ) (cw : ℚ) (k : ℕ),
      (assignGo intrinsic dDall M L cw)[k]? =
        (L[k]?).map (fun i =>
          argmaxX (scoreList intrinsic dDall M (cw * (1 / (M : ℚ)) ^ (k + 1)) i)) := by
  intro L
  induction L with
  | nil => intro cw k; simp [assignGo]
  | cons i rest ih =>
    intro cw k
    cases k with
    | zero => simp [assignGo, pow_one]
    | succ k =>
      simp only [assignGo, List.getElem?_cons_succ]
      rw [ih]
      have hcw : cw * (1 / (M : ℚ)) * (1 / (M : ℚ)) ^ (k + 1)
          = cw * (1 / (M : ℚ)) ^ (k + 1 + 1) := by ring
      simp only [hcw]

/-- Claim C3, amended: the closeness weight is reassigned inside the
per-drone loop, so the drone at iteration index `j` (0-based) scores sheep
with weight `w_close_base * (1/M)^(j+1)` — cumulative across drones — not
the once-computed `w_close_base / M` of the claim (the two agree only for
the first drone or when `M = 1`). -/
theorem C3_amended_cumulative_weight (intrinsic : List XQ)
    (dDall : List (List ℚ)) (M : ℕ) (cw0 : ℚ) (j : ℕ) (hj : j < M) :
    (assignLoop intrinsic dDall M cw0)[j]? =
      some (argmaxX (scoreList intrinsic dDall M (cw0 * (1 / (M : ℚ)) ^ (j + 1)) j)) := by
  unfold assignLoop
  rw [assignGo_get? intrinsic dDall M (List.range M) cw0 j]
  simp [List.getElem?_range, hj]

/-- Witness for the amended C3: the second of two drones uses weight
`(1/2)^2`. -/
theorem C3_amended_witness :
    1 < 2 ∧
    (assignLoop [XQ.fin 0, XQ.fin 10] [[5, 1], [5, 1]] 2 1)[1]? =
      some (argmaxX (scoreList [XQ.fin 0, XQ.fin 10] [[5, 1], [5, 1]] 2
        (1 * (1 / (2 : ℚ)) ^ (1 + 1)) 1)) :=
  ⟨by decide, C3_amended_cumulative_weight [XQ.fin 0, XQ.fin 10]
    [[5, 1], [5, 1]] 2 1 1 (by decide)⟩

/-! ### Claim C7: plan length validation -/

@[simp] lemma refreshNeighbors_P (w : World) : (refreshNeighbors w).P = w.P := rfl

@[simp] lemma refreshNeighbors_V (w : World) : (refreshNeighbors w).V = w.V := rfl

@[simp] lemma refreshNeighbors_flock (w : World) :
    (refreshNeighbors w).flock = w.flock := rfl

@[simp] lemma refreshNeighbors_dogs (w : World) :
    (refreshNeighbors w).dogs = w.dogs := rfl

@[simp] lemma refreshNeighbors_applyRepulsion (w : World) :
    (refreshNeighbors w).applyRepulsion = w.applyRepulsion := rfl

/-- Claim C7: on an unpaused world, `World.step` with a `DronePositions`
plan raises exactly when the plan's `positions` or `apply_repulsion` length
differs from the controller count, and when it raises, the agent positions,
velocities, flock factors, controller positions and repulsion flags are all
left unchanged (only the neighbor-cache bookkeeping may have advanced). -/
theorem C7_plan_length_validation (w : World) (d : DronePositionsData)
    (rnd : Rand) (h : w.paused = false) :
    (((World.step w (Plan.dronePositions d) rnd).isErr = true) ↔
      (d.positions.length ≠ w.dogs.length ∨ d.applyRepulsion.length ≠ w.dogs.length)) ∧
    ((d.positions.length ≠ w.dogs.length ∨ d.applyRepulsion.length ≠ w.dogs.length) →
      ((World.step w (Plan.dronePositions d) rnd).world.P = w.P ∧
       (World.step w (Plan.dronePositions d) rnd).world.V = w.V ∧
       (World.step w (Plan.dronePositions d) rnd).world.flock = w.flock ∧
       (World.step w (Plan.dronePositions d) rnd).world.dogs = w.dogs ∧
       (World.step w (Plan.dronePositions d) rnd).world.applyRepulsion = w.applyRepulsion)) := by
  have hstep : World.step w (Plan.dronePositions d) rnd =
      (let w1 := if w.useNeighborCache then refreshNeighbors w else w
       if d.positions.length ≠ w1.dogs.length ∨ d.applyRepulsion.length ≠ w1.dogs.length then
         StepResult.err
           "ValueError: DronePositions plan must have matching positions and repulsion flags."
           w1
       else
         StepResult.ok (sheepStep
           {w1 with dogs := applyBoundsPoint w1 d.positions,
                    applyRepulsion := d.applyRepulsion} rnd)) := by
    unfold World.step
    rw [if_neg (by simp [h])]
  by_cases hc : w.useNeighborCache
  · rw [hstep]
    simp only [hc, if_true, refreshNeighbors_dogs]
    by_cases hm : d.positions.length ≠ w.dogs.length ∨ d.applyRepulsion.length ≠ w.dogs.length
    · rw [if_pos hm]
      exact ⟨by simpa [StepResult.isErr] using hm, fun _ => ⟨rfl, rfl, rfl, rfl, rfl⟩⟩
    · rw [if_neg hm]
      exact ⟨by simpa [StepResult.isErr] using hm, fun hmm => absurd hmm hm⟩
  · rw [hstep]
    simp only [hc, if_false, Bool.false_eq_true]
    by_cases hm : d.positions.length ≠ w.dogs.length ∨ d.applyRepulsion.length ≠ w.dogs.length
    · rw [if_pos hm]
      exact ⟨by simpa [StepResult.isErr] using hm, fun _ => ⟨rfl, rfl, rfl, rfl, rfl⟩⟩
    · rw [if_neg hm]
      exact ⟨by simpa [StepResult.isErr] using hm, fun hmm => absurd hmm hm⟩

/-- Witness for C7 at `c4World` (zero controllers) and a one-position plan. -/
theorem C7_witness :
    c4World.paused = false ∧
    (badPlanData.positions.length ≠ c4World.dogs.length ∨
      badPlanData.applyRepulsion.length ≠ c4World.dogs.length) ∧
    ((World.step c4World (Plan.dronePositions badPlanData) rnd0).isErr = true) ∧
    (World.step c4World (Plan.dronePositions badPlanData) rnd0).world.P = c4World.P :=
  ⟨rfl, by decide,
    (C7_plan_length_validation c4World badPlanData rnd0 rfl).1.mpr (by decide),
    ((C7_plan_length_validation c4World badPlanData rnd0 rfl).2 (by decide)).1⟩

/-! ### Claim C9: the flock-factor invariant -/

lemma clip01_mem (x : ℚ) : 0 ≤ clip x 0 1 ∧ clip x 0 1 ≤ 1 := by
  unfold clip
  exact ⟨le_min (le_max_right x 0) zero_le_one, min_le_right _ _⟩

lemma clip01_dist (f c : ℚ) (h0 : 0 ≤ f) (h1 : f ≤ 1) :
    |clip (f + c) 0 1 - f| ≤ |c| := by
  unfold clip
  rw [abs_le]
  have habs1 : -|c| ≤ c := neg_abs_le c
  have habs2 : c ≤ |c| := le_abs_self c
  have habs0 : 0 ≤ |c| := abs_nonneg c
  rcases le_or_lt (f + c) 0 with hle | hgt
  · rw [max_eq_right hle, min_eq_left (by norm_num : (0:ℚ) ≤ 1)]
    constructor <;> linarith
  · rw [max_eq_left (le_of_lt hgt)]
    rcases le_or_lt (f + c) 1 with hle1 | hgt1
    · rw [min_eq_left hle1]
      constructor <;> linarith
    · rw [min_eq_right (le_of_lt hgt1)]
      constructor <;> linarith

lemma smooth_push_mem (d rs : ℚ) (hd : 0 ≤ d) (hrs : 0 < rs) :
    0 ≤ smooth_push d rs ∧ smooth_push d rs ≤ 1 := by
  unfold smooth_push
  have hpos : (0:ℚ) < rs + 1/1000000000 := by linarith
  have : (0:ℚ) ≤ d / (rs + 1/1000000000) := div_nonneg hd (le_of_lt hpos)
  exact ⟨le_max_left 0 _, max_le (by norm_num) (by linarith)⟩

lemma prod_mem_unit (l : List ℚ) (h : ∀ x ∈ l, 0 ≤ x ∧ x ≤ 1) :
    0 ≤ l.prod ∧ l.prod ≤ 1 := by
  induction l with
  | nil => simp
  | cons x xs ih =>
    have hx := h x (List.mem_cons_self x xs)
    have hxs := ih (fun y hy => h y (List.mem_cons_of_mem x hy))
    rw [List.prod_cons]
    constructor
    · exact mul_nonneg hx.1 hxs.1
    · calc x * xs.prod ≤ 1 * 1 := mul_le_mul hx.2 hxs.2 hxs.1 (by norm_num)
        _ = 1 := by ring

lemma repelLevel_mem (w : World) (dd2 : List (List ℚ)) (i : ℕ)
    (hrs : 0 < w.rs) : 0 ≤ repelLevel w dd2 i ∧ repelLevel w dd2 i ≤ 1 := by
  unfold repelLevel
  have hp := prod_mem_unit
    ((dd2.getD i []).map (fun dsq => 1 - smooth_push (ratSqrt dsq) w.rs)) ?_
  · exact ⟨by linarith [hp.2], by linarith [hp.1]⟩
  · intro x hx
    simp only [List.mem_map] at hx
    obtain ⟨dsq, _, rfl⟩ := hx
    have hs := smooth_push_mem (ratSqrt dsq) w.rs (ratSqrt_nonneg dsq) hrs
    exact ⟨by linarith [hs.2], by linarith [hs.1]⟩

lemma getD_range_map {α : Type} (f : ℕ → α) (n i : ℕ) (d : α) (h : i < n) :
    ((List.range n).map f).getD i d = f i := by
  rw [List.getD_eq_getElem?_getD, List.getElem?_map]
  simp [List.getElem?_range, h]

lemma flockUpdate_props (w : World) (dd2 : List (List ℚ)) (i : ℕ)
    (hi : i < w.P.length) (hrs : 0 < w.rs) (hdt : 0 ≤ w.dt)
    (h0 : 0 ≤ w.flock.getD i 0) (h1 : w.flock.getD i 0 ≤ 1) :
    0 ≤ (flockUpdate w dd2).getD i 0 ∧ (flockUpdate w dd2).getD i 0 ≤ 1 ∧
    |(flockUpdate w dd2).getD i 0 - w.flock.getD i 0| ≤ max (1/2) (1/60) * w.dt := by
  unfold flockUpdate
  rw [getD_range_map _ _ _ _ hi]
  dsimp only
  set f := w.flock.getD i 0 with hf
  set p := repelLevel w dd2 i with hpdef
  have hpm := repelLevel_mem w dd2 i hrs
  set rate : ℚ := if p - f > 0 then (1:ℚ)/2 else 1/60 with hrate
  refine ⟨(clip01_mem _).1, (clip01_mem _).2, ?_⟩
  have hdist := clip01_dist f (rate * (p - f) * w.dt) h0 h1
  have hmax : (0:ℚ) < max (1/2) (1/60) := lt_of_lt_of_le (by norm_num) (le_max_left _ _)
  have hd1 : |p - f| ≤ 1 := by
    rw [abs_le]
    constructor <;> [linarith [hpm.1]; linarith [hpm.2]]
  have hr : |rate| ≤ max (1/2) (1/60) := by
    rw [hrate]
    split
    · rw [abs_of_nonneg (by norm_num)]
      exact le_max_left _ _
    · rw [abs_of_nonneg (by norm_num)]
      exact le_max_right _ _
  have hbound : |rate * (p - f) * w.dt| ≤ max (1/2) (1/60) * w.dt := by
    rw [abs_mul, abs_mul, abs_of_nonneg hdt]
    have h2 : |rate| * |p - f| ≤ max (1/2) (1/60) * 1 :=
      mul_le_mul hr hd1 (abs_nonneg _) (le_of_lt hmax)
    have h3 : |rate| * |p - f| * w.dt ≤ (max (1/2) (1/60) * 1) * w.dt :=
      mul_le_mul_of_nonneg_right h2 hdt
    linarith
  exact le_trans hdist hbound

lemma foldl_flock_invariant {β : Type} (g : World → β → World)
    (hg : ∀ a b, (g a b).flock = a.flock) :
    ∀ (l : List β) (w : World), (l.foldl g w).flock = w.flock := by
  intro l
  induction l with
  | nil => intro w; rfl
  | cons x xs ih => intro w; rw [List.foldl_cons, ih, hg]

lemma resolvePolygonPenetration_flock (w : World) :
    (resolvePolygonPenetration w).1.flock = w.flock := by
  unfold resolvePolygonPenetration
  split <;> rfl

lemma resolveWorldKeepout_flock (w : World) :
    (resolveWorldKeepout w).1.flock = w.flock := rfl

lemma enforceKeepoutAll_flock (w : World) :
    (enforceKeepoutAll w).flock = w.flock := by
  unfold enforceKeepoutAll
  rw [foldl_flock_invariant _ ?_]
  · rw [resolveWorldKeepout_flock, resolvePolygonPenetration_flock]
  · intro a b
    dsimp only
    split_ifs <;> rfl

lemma applyBoundsSheep_flock (w : World) :
    (applyBoundsSheep w).flock = w.flock := by
  unfold applyBoundsSheep
  cases w.boundary <;> rfl

lemma sheepStep_flock (w : World) (rnd : Rand) :
    (sheepStep w rnd).flock = flockUpdate w (dogDistSq w) := by
  unfold sheepStep
  dsimp only
  split
  · rw [applyBoundsSheep_flock, enforceKeepoutAll_flock]
  · rfl

/-- Claim C9: after every successful `World.step`, each agent's flock factor
lies in `[0, 1]`, and the change from the pre-step value is at most
`max(rate_up, rate_down) * dt` with `rate_up = 1/2`, `rate_down = 1/60`
(the update is `clip(flock + rate * (p - flock) * dt, 0, 1)` with the
repulsion pressure `p` in `[0, 1]`). -/
theorem C9_flock_invariant (w : World) (plan : Plan) (rnd : Rand) (w' : World)
    (hrs : 0 < w.rs) (hdt : 0 ≤ w.dt) (hlen : w.flock.length = w.P.length)
    (hf : ∀ g ∈ w.flock, 0 ≤ g ∧ g ≤ 1)
    (hstep : World.step w plan rnd = StepResult.ok w') :
    ∀ i, i < w.P.length →
      0 ≤ w'.flock.getD i 0 ∧ w'.flock.getD i 0 ≤ 1 ∧
      |w'.flock.getD i 0 - w.flock.getD i 0| ≤ max (1/2) (1/60) * w.dt := by
  intro i hi
  have hmaxdt : 0 ≤ max ((1:ℚ)/2) (1/60) * w.dt :=
    mul_nonneg (le_trans (by norm_num) (le_max_left _ _)) hdt
  have hfi : 0 ≤ w.flock.getD i 0 ∧ w.flock.getD i 0 ≤ 1 := by
    have hi' : i < w.flock.length := by rw [hlen]; exact hi
    rw [List.getD_eq_getElem w.flock 0 hi']
    exact hf _ (List.getElem_mem hi')
  -- a helper for the two sheep-stepping branches
  have hmain : ∀ wS : World, wS.flock = w.flock → wS.P.length = w.P.length →
      wS.dt = w.dt → wS.rs = w.rs → w' = sheepStep wS rnd →
      0 ≤ w'.flock.getD i 0 ∧ w'.flock.getD i 0 ≤ 1 ∧
      |w'.flock.getD i 0 - w.flock.getD i 0| ≤ max (1/2) (1/60) * w.dt := by
    intro wS hfl hPl hdt' hrs' hww
    subst hww
    rw [sheepStep_flock]
    have hco := flockUpdate_props wS (dogDistSq wS) i
      (by rw [hPl]; exact hi) (by rw [hrs']; exact hrs)
      (by rw [hdt']; exact hdt)
      (by rw [hfl]; exact hfi.1) (by rw [hfl]; exact hfi.2)
    rw [hfl, hdt'] at hco
    exact hco
  by_cases hp : w.paused = true
  · unfold World.step at hstep
    rw [if_pos hp] at hstep
    have hw : w = w' := by injection hstep
    subst hw
    refine ⟨hfi.1, hfi.2, ?_⟩
    simpa using hmaxdt
  · unfold World.step at hstep
    rw [if_neg hp] at hstep
    dsimp only at hstep
    generalize hgen :
      (if w.useNeighborCache = true then refreshNeighbors w else w) = w1 at hstep
    have h1flock : w1.flock = w.flock := by rw [← hgen]; split <;> simp
    have h1P : w1.P = w.P := by rw [← hgen]; split <;> simp
    have h1dt : w1.dt = w.dt := by rw [← hgen]; split <;> rfl
    have h1rs : w1.rs = w.rs := by rw [← hgen]; split <;> rfl
    cases plan with
    | doNothing =>
      dsimp only at hstep
      have hw' : w' = sheepStep
          {w1 with applyRepulsion := List.replicate w1.dogs.length false} rnd := by
        injection hstep with h
        exact h.symm
      refine hmain _ ?_ ?_ ?_ ?_ hw'
      · exact h1flock
      · exact congrArg List.length h1P
      · exact h1dt
      · exact h1rs
    | dronePositions d =>
      dsimp only at hstep
      by_cases hm : d.positions.length ≠ w1.dogs.length ∨
          d.applyRepulsion.length ≠ w1.dogs.length
      · rw [if_pos hm] at hstep
        exact StepResult.noConfusion hstep
      · rw [if_neg hm] at hstep
        have hw' : w' = sheepStep
            {w1 with dogs := applyBoundsPoint w1 d.positions,
                     applyRepulsion := d.applyRepulsion} rnd := by
          injection hstep with h
          exact h.symm
        refine hmain _ ?_ ?_ ?_ ?_ hw'
        · exact h1flock
        · exact congrArg List.length h1P
        · exact h1dt
        · exact h1rs

/-- Witness for C9 on the one-agent world `c4World` stepped with
`DoNothing`. -/
theorem C9_witness :
    (0:ℚ) < c4World.rs ∧ (0:ℚ) ≤ c4World.dt ∧
    c4World.flock.length = c4World.P.length ∧
    (∀ g ∈ c4World.flock, 0 ≤ g ∧ g ≤ 1) ∧
    (∀ i, i < c4World.P.length →
      0 ≤ (World.step c4World Plan.doNothing rnd0).world.flock.getD i 0 ∧
      (World.step c4World Plan.doNothing rnd0).world.flock.getD i 0 ≤ 1 ∧
      |(World.step c4World Plan.doNothing rnd0).world.flock.getD i 0 -
        c4World.flock.getD i 0| ≤ max (1/2) (1/60) * c4World.dt) :=
  ⟨by decide, by decide, by decide, by decide,
    C9_flock_invariant c4World Plan.doNothing rnd0
      ((World.step c4World Plan.doNothing rnd0).world)
      (by decide) (by decide) (by decide) (by decide) rfl⟩

/-! ### Claim C4: the decay branch of the grazing rule -/

lemma farBody_lengths (w : World) (rnd : Rand)
    (st : List Vec2 × List Vec2 × List Vec2) (j : ℕ) :
    (farBody w rnd st j).1.length = st.1.length ∧
    (farBody w rnd st j).2.1.length = st.2.1.length ∧
    (farBody w rnd st j).2.2.length = st.2.2.length := by
  unfold farBody
  split <;> simp

lemma farBody_getD_ne (w : World) (rnd : Rand)
    (st : List Vec2 × List Vec2 × List Vec2) (j i : ℕ) (hne : j ≠ i) :
    (farBody w rnd st j).1.getD i vzero = st.1.getD i vzero ∧
    (farBody w rnd st j).2.1.getD i vzero = st.2.1.getD i vzero ∧
    (farBody w rnd st j).2.2.getD i vzero = st.2.2.getD i vzero := by
  unfold farBody
  split
  · refine ⟨?_, ?_, rfl⟩ <;>
      rw [List.getD_eq_getElem?_getD, List.getElem?_set_ne hne,
        ← List.getD_eq_getElem?_getD]
  · refine ⟨rfl, rfl, ?_⟩
    rw [List.getD_eq_getElem?_getD, List.getElem?_set_ne hne,
      ← List.getD_eq_getElem?_getD]

lemma farFold_untouched (w : World) (rnd : Rand) :
    ∀ (L : List ℕ) (st : List Vec2 × List Vec2 × List Vec2) (i : ℕ), i ∉ L →
      (L.foldl (farBody w rnd) st).1.getD i vzero = st.1.getD i vzero ∧
      (L.foldl (farBody w rnd) st).2.1.getD i vzero = st.2.1.getD i vzero ∧
      (L.foldl (farBody w rnd) st).2.2.getD i vzero = st.2.2.getD i vzero := by
  intro L
  induction L with
  | nil => intro st i _; exact ⟨rfl, rfl, rfl⟩
  | cons j rest ih =>
    intro st i hi
    have hji : j ≠ i := fun h => hi (h ▸ List.mem_cons_self j rest)
    have hrest : i ∉ rest := fun h => hi (List.mem_cons_of_mem j h)
    rw [List.foldl_cons]
    have h1 := ih (farBody w rnd st j) i hrest
    have h2 := farBody_getD_ne w rnd st j i hji
    exact ⟨h1.1.trans h2.1, h1.2.1.trans h2.2.1, h1.2.2.trans h2.2.2⟩

lemma farFold_lengths (w : World) (rnd : Rand) :
    ∀ (L : List ℕ) (st : List Vec2 × List Vec2 × List Vec2),
      (L.foldl (farBody w rnd) st).1.length = st.1.length ∧
      (L.foldl (farBody w rnd) st).2.1.length = st.2.1.length ∧
      (L.foldl (farBody w rnd) st).2.2.length = st.2.2.length := by
  intro L
  induction L with
  | nil => intro st; exact ⟨rfl, rfl, rfl⟩
  | cons j rest ih =>
    intro st
    rw [List.foldl_cons]
    have h1 := ih (farBody w rnd st j)
    have h2 := farBody_lengths w rnd st j
    exact ⟨h1.1.trans h2.1, h1.2.1.trans h2.2.1, h1.2.2.trans h2.2.2⟩

/-- Claim C4, amended: for an agent on the Bernoulli decay branch of
`_handle_far_sheep`, the grazing contribution handed to the blend
(`V_new[i]`) is the zero vector — not `decay * V_i` — while the handler
itself scales `V[i]` by `decay` and advances `P[i]` by the decayed velocity
times `dt` in place; the blend step later advances the position a second
time by `flock_i * v_near_i * dt`. -/
theorem C4_amended_decay_branch (w : World) (rnd : Rand) (P V : List Vec2)
    (i : ℕ) (hiP : i < P.length) (hiV : i < V.length)
    (hp : w.grazeP < 1) (hdraw : w.grazeP < rnd.grazeU i) :
    (handleFarSheep w rnd P V).2.2.getD i vzero = vzero ∧
    (handleFarSheep w rnd P V).1.getD i vzero =
      vadd (P.getD i vzero) (vsmul w.dt (vsmul grazeDecay (V.getD i vzero))) ∧
    (handleFarSheep w rnd P V).2.1.getD i vzero =
      vsmul grazeDecay (V.getD i vzero) := by
  unfold handleFarSheep
  obtain ⟨k, hk⟩ : ∃ k, P.length = i + (k + 1) := ⟨P.length - i - 1, by omega⟩
  have hsplit : List.range P.length =
      List.range i ++ (i :: ((List.range k).map Nat.succ).map (i + ·)) := by
    rw [hk, List.range_add, List.range_succ_eq_map]
    simp
  rw [hsplit, List.foldl_append]
  set st0 : List Vec2 × List Vec2 × List Vec2 := (P, V, List.replicate P.length vzero) with hst0
  have hpre := farFold_untouched w rnd (List.range i) st0 i (by simp)
  have hlenpre := farFold_lengths w rnd (List.range i) st0
  set st1 := (List.range i).foldl (farBody w rnd) st0 with hst1
  rw [List.foldl_cons]
  have htail : i ∉ (((List.range k).map Nat.succ).map (i + ·)) := by
    simp only [List.mem_map, List.mem_range]
    rintro ⟨j, ⟨m, _, rfl⟩, hj⟩
    omega
  have hpost := farFold_untouched w rnd _ (farBody w rnd st1 i) i htail
  refine ⟨?_, ?_, ?_⟩
  · rw [hpost.2.2]
    have hkeep : (farBody w rnd st1 i).2.2.getD i vzero = st1.2.2.getD i vzero := by
      unfold farBody
      rw [if_pos ⟨hp, hdraw⟩]
    rw [hkeep, hpre.2.2, hst0]
    simp [List.getD]
  · rw [hpost.1]
    have hset : (farBody w rnd st1 i).1.getD i vzero =
        vadd (st1.1.getD i vzero) (vsmul w.dt (vsmul grazeDecay (st1.2.1.getD i vzero))) := by
      unfold farBody
      rw [if_pos ⟨hp, hdraw⟩]
      dsimp only
      rw [List.getD_eq_getElem?_getD]
      rw [List.getElem?_set_self (by rw [hlenpre.1]; exact hiP)]
      rfl
    rw [hset, hpre.1, hpre.2.1]
  · rw [hpost.2.1]
    have hset : (farBody w rnd st1 i).2.1.getD i vzero =
        vsmul grazeDecay (st1.2.1.getD i vzero) := by
      unfold farBody
      rw [if_pos ⟨hp, hdraw⟩]
      dsimp only
      rw [List.getD_eq_getElem?_getD]
      rw [List.getElem?_set_self (by rw [hlenpre.2.1]; exact hiV)]
      rfl
    rw [hset, hpre.2.1]

/-- Witness for the amended C4 on `c4World`'s single agent. -/
theorem C4_amended_witness :
    0 < c4World.P.length ∧ 0 < c4World.V.length ∧
    c4World.grazeP < 1 ∧ c4World.grazeP < rnd0.grazeU 0 ∧
    ((handleFarSheep c4World rnd0 c4World.P c4World.V).2.2.getD 0 vzero = vzero ∧
     (handleFarSheep c4World rnd0 c4World.P c4World.V).1.getD 0 vzero =
       vadd (c4World.P.getD 0 vzero)
         (vsmul c4World.dt (vsmul grazeDecay (c4World.V.getD 0 vzero))) ∧
     (handleFarSheep c4World rnd0 c4World.P c4World.V).2.1.getD 0 vzero =
       vsmul grazeDecay (c4World.V.getD 0 vzero)) :=
  ⟨by decide, by decide, by decide, by decide,
    C4_amended_decay_branch c4World rnd0 c4World.P c4World.V 0
      (by decide) (by decide) (by decide) (by decide)⟩

end DroneRangers
